import Mathlib

/-!
Shallow embedding of the core subsystems of the many-rs repository: the
versioned migration engine, the ABCI bridge check and deliver paths, the
merkle-backed storage commit step, the event identifier scheme, and the
event codec. Definitions are translated from the Rust sources under the
crates many-migration, many-abci, many-server, many-kvstore, many-ledger
and many-modules. Definitions standing for code of the repository that is
not part of the vendored sources (external crates or modules only declared
here) are marked as modelled from the specification in their doc comments.
-/

namespace ManyRs

/-! Migration engine, from many-migration/src/lib.rs. -/

/-- Rust enum Status of a migration. -/
inductive Status where
  | Enabled
  | Disabled
deriving DecidableEq, Repr

/-- Rust struct Metadata of a migration. The serde extra map is omitted:
    it is never read by the engine. -/
structure Metadata where
  block_height : Nat
  issue : Option String
deriving DecidableEq, Repr

/-- Rust enum MigrationType: a Regular migration holds an initialize and an
    update function pointer, a Hotfix migration holds a byte rewriting
    function. Functions that mutate the storage through a mutable reference
    and return a Result are embedded as functions from storage to
    Except E storage. -/
inductive MigrationType (T E : Type) where
  | Regular (init_fn : T → Except E T) (update_fn : T → Except E T)
  | Hotfix (hotfix_fn : List Nat → Option (List Nat))

/-- Rust struct InnerMigration. The field mtype embeds the source field
    named type (a raw identifier in the source). -/
structure InnerMigration (T E : Type) where
  mtype : MigrationType T E
  name : String
  description : String

/-- Rust fn InnerMigration::initialize: runs the initialize function of a
    Regular migration; a Hotfix migration is skipped and Ok is returned. -/
def InnerMigration.runInit {T E : Type} (m : InnerMigration T E) (storage : T) : Except E T :=
  match m.mtype with
  | .Regular i _ => i storage
  | .Hotfix _ => .ok storage

/-- Rust fn InnerMigration::update: runs the update function of a Regular
    migration; a Hotfix migration is skipped and Ok is returned. -/
def InnerMigration.update {T E : Type} (m : InnerMigration T E) (storage : T) : Except E T :=
  match m.mtype with
  | .Regular _ u => u storage
  | .Hotfix _ => .ok storage

/-- Rust fn InnerMigration::hotfix: runs the hotfix function of a Hotfix
    migration; a Regular migration is skipped and None is returned. -/
def InnerMigration.hotfix {T E : Type} (m : InnerMigration T E) (b : List Nat) :
    Option (List Nat) :=
  match m.mtype with
  | .Hotfix h => h b
  | .Regular _ _ => none

/-- Rust struct Migration: a registered migration together with its
    configured metadata and status. -/
structure Migration (T E : Type) where
  migration : InnerMigration T E
  metadata : Metadata
  status : Status

/-- Rust fn Migration::initialize: guarded by status Enabled and
    metadata block height equal to the given height h. -/
def Migration.initAt {T E : Type} (self : Migration T E) (storage : T) (h : Nat) : Except E T :=
  if self.status = .Enabled ∧ self.metadata.block_height = h then
    self.migration.runInit storage
  else
    .ok storage

/-- Rust fn Migration::update, translated exactly as written in the source:
    the guard compares metadata block height greater or equal to the commit
    height h, although the doc comment of the source function states that it
    gets executed when the storage block height is greater or equal to the
    migration block height. -/
def Migration.update {T E : Type} (self : Migration T E) (storage : T) (h : Nat) : Except E T :=
  if self.status = .Enabled ∧ self.metadata.block_height ≥ h then
    self.migration.update storage
  else
    .ok storage

/-- Rust fn Migration::hotfix: guarded by status Enabled and metadata block
    height equal to the given height h. -/
def Migration.hotfixAt {T E : Type} (self : Migration T E) (b : List Nat) (h : Nat) :
    Option (List Nat) :=
  if self.status = .Enabled ∧ self.metadata.block_height = h then
    self.migration.hotfix b
  else
    none

/-- A concrete Regular migration over a Nat storage whose update function
    increments the storage, used to observe whether the update ran. -/
def incStore : InnerMigration Nat Unit :=
  { mtype := .Regular (fun s => .ok s) (fun s => .ok (s + 1))
    name := "counter"
    description := "increments the storage on update" }

/-- An Enabled configuration of incStore activating at block height 1. -/
def mig1 : Migration Nat Unit :=
  { migration := incStore
    metadata := { block_height := 1, issue := none }
    status := .Enabled }

/-- C1: for an Enabled Regular migration with block height 1,
    Migration::update is a no-op at commit height 2 - although the claim,
    the spec and the doc comment of the source function all state that the
    update must run at every height at or above the block height - while at
    height 0, before the activation height, the update function does run.
    The guard of the source compares in the wrong direction. -/
theorem C1_update_guard_inverted :
    Migration.update mig1 0 2 = Except.ok 0 ∧ Migration.update mig1 0 0 = Except.ok 1 := by
  constructor <;> rfl

/-! Error model shared by the server and the bridge. Modelled from the spec:
    the many-error crate is not part of the vendored sources. Only the
    distinctions read by the vendored code are kept: whether a code is
    attribute specific, and the named codes used by the timestamp check. -/

/-- Modelled from the spec: the ManyErrorCode enumeration of the external
    many-error crate, reduced to the distinctions the vendored code reads.
    An attribute specific code carries its attribute index pair. -/
inductive ManyErrorCode where
  | Unknown
  | AttributeSpecific (attr : Nat) (idx : Nat)
  | TimestampOutOfRange
  | RequiredFieldMissing (field : String)
  | Other (n : Int)
deriving DecidableEq, Repr

/-- Rust fn ManyErrorCode::is_attribute_specific, true exactly on the
    attribute specific constructor. -/
def ManyErrorCode.is_attribute_specific : ManyErrorCode → Bool
  | .AttributeSpecific _ _ => true
  | _ => false

/-- Modelled from the spec: the ManyError error value of the external
    many-error crate, reduced to its code. -/
structure ManyError where
  code : ManyErrorCode
deriving DecidableEq, Repr

/-- Rust fn ManyError::with_code: the same error with its code replaced. -/
def ManyError.with_code (_e : ManyError) (c : ManyErrorCode) : ManyError :=
  { code := c }

/-- Modelled from the spec: a request message of the external many-protocol
    crate, reduced to the only field the vendored timestamp check reads;
    the timestamp is seconds since the epoch. -/
structure RequestMessage where
  timestamp : Option Nat
deriving DecidableEq, Repr

/-! Timestamp validation, from many-server/src/server.rs. -/

/-- Rust fn _validate_time (many-server/src/server.rs): rejects a zero
    timeout, requires the message timestamp, and rejects the message when
    the absolute difference between the timestamp and now is greater than
    or equal to the timeout. Instants are embedded as seconds since the
    epoch, so duration_since of the later and earlier instants is their
    difference and never fails. -/
def validateTime (message : RequestMessage) (now : Nat) (timeout_in_secs : Nat) :
    Except ManyError Unit :=
  if timeout_in_secs = 0 then
    .error { code := .TimestampOutOfRange }
  else
    match message.timestamp with
    | none => .error { code := .RequiredFieldMissing "timestamp" }
    | some ts =>
      let diff := if ts < now then now - ts else ts - now
      if diff ≥ timeout_in_secs then
        .error { code := .TimestampOutOfRange }
      else
        .ok ()

/-! The check path of the ABCI bridge, from many-abci/src/abci_app.rs. -/

/-- Rust const MANYABCI_DEFAULT_TIMEOUT. -/
def MANYABCI_DEFAULT_TIMEOUT : Nat := 300

/-- Modelled from the spec: a COSE signed envelope of the external coset
    crate, reduced to its optional payload bytes. -/
structure CoseSign1 where
  payload : Option (List Nat)
deriving DecidableEq, Repr

/-- The environment of one do_check_tx call: the outcomes of the external
    collaborators the function consults, in the order it consults them.
    Deserialization of the transaction bytes, the request validator hooks
    and the wall clock are external to the vendored bridge source and enter
    as oracle fields. -/
structure CheckEnv where
  parseCose : Except String CoseSign1
  parseMsg : Except String RequestMessage
  cacheReadPoisoned : Bool
  validateEnvelopeOk : Bool
  validateRequest : Except String Unit
  blockTimeReadPoisoned : Bool
  blockTime : Option Nat
  wallClock : Nat

/-- Rust fn AbciApp::do_check_tx (many-abci/src/abci_app.rs): deserializes
    the envelope and the message, runs the request validator under a shared
    read lock, then validates the message timestamp against the block time,
    defaulting to the wall clock when no block time is known. Each failure
    is returned with its check error code. -/
def doCheckTx (env : CheckEnv) : Except (Nat × String) Unit :=
  match env.parseCose with
  | .error log => .error (4, log)
  | .ok _cose =>
    match env.parseMsg with
    | .error log => .error (5, log)
    | .ok message =>
      if env.cacheReadPoisoned then
        .error (6, "poisoned")
      else if ¬ env.validateEnvelopeOk then
        .error (10, "Transaction already in cache")
      else
        match env.validateRequest with
        | .error log => .error (10, log)
        | .ok _ =>
          if env.blockTimeReadPoisoned then
            .error (6, "poisoned")
          else
            let now := env.blockTime.getD env.wallClock
            match validateTime message now MANYABCI_DEFAULT_TIMEOUT with
            | .error _ => .error (9, "timestamp outside of range")
            | .ok _ => .ok ()

/-- Rust fn AbciApp::check_tx: the response code of the check, zero on
    success and the check error code otherwise. -/
def checkTx (env : CheckEnv) : Nat :=
  match doCheckTx env with
  | .ok _ => 0
  | .error (code, _) => code

/-- C6: with block time b known and every earlier validation step passing,
    a message timestamped t passes the check (code 0) exactly when the
    absolute difference of t and b is under the 300 second timeout, and
    fails with code 9 (TimestampOutsideOfRangeError) when the difference
    reaches or exceeds 300; the boundary difference of exactly 300 is
    rejected by the greater-or-equal comparison of the validator. -/
theorem C6_timestamp_check (env : CheckEnv) (c : CoseSign1) (msg : RequestMessage)
    (b t : Nat)
    (hc : env.parseCose = .ok c) (hm : env.parseMsg = .ok msg)
    (ht : msg.timestamp = some t)
    (hp : env.cacheReadPoisoned = false) (he : env.validateEnvelopeOk = true)
    (hr : env.validateRequest = .ok ()) (hbp : env.blockTimeReadPoisoned = false)
    (hb : env.blockTime = some b) :
    (checkTx env = 0 ↔ (if t < b then b - t else t - b) < 300) ∧
      ((if t < b then b - t else t - b) ≥ 300 → checkTx env = 9) := by
  have key : checkTx env = if 300 ≤ (if t < b then b - t else t - b) then 9 else 0 := by
    by_cases h : 300 ≤ (if t < b then b - t else t - b)
    all_goals simp [checkTx, doCheckTx, validateTime, MANYABCI_DEFAULT_TIMEOUT,
      hc, hm, hp, he, hr, hbp, hb, ht, h]
  rw [key]
  by_cases h : 300 ≤ (if t < b then b - t else t - b)
  · rw [if_pos h]
    exact ⟨by constructor <;> intro <;> omega, fun _ => rfl⟩
  · rw [if_neg h]
    exact ⟨by constructor <;> intro <;> omega, fun hx => by omega⟩

/-- Concrete witness for C6 at the literal values of the claim: with block
    time 1700000000, a message timestamped 1700000299 passes with code 0
    and one timestamped 1700000301 fails with code 9. -/
theorem C6_timestamp_check_witness :
    checkTx { parseCose := .ok { payload := none }
              parseMsg := .ok { timestamp := some 1700000299 }
              cacheReadPoisoned := false, validateEnvelopeOk := true
              validateRequest := .ok (), blockTimeReadPoisoned := false
              blockTime := some 1700000000, wallClock := 0 } = 0 ∧
    checkTx { parseCose := .ok { payload := none }
              parseMsg := .ok { timestamp := some 1700000301 }
              cacheReadPoisoned := false, validateEnvelopeOk := true
              validateRequest := .ok (), blockTimeReadPoisoned := false
              blockTime := some 1700000000, wallClock := 0 } = 9 := by
  constructor
  · exact (C6_timestamp_check _ _ _ 1700000000 1700000299 rfl rfl rfl rfl rfl rfl rfl
      rfl).1.mpr (by decide)
  · exact (C6_timestamp_check _ _ _ 1700000000 1700000301 rfl rfl rfl rfl rfl rfl rfl
      rfl).2 (by decide)

/-! The deliver path of the ABCI bridge, from many-abci/src/abci_app.rs. -/

/-- Modelled from the spec: an address is an opaque identifier; embedded
    as a natural number. -/
abbrev Address : Type := Nat

/-- Rust fn Address::anonymous, the distinguished anonymous identity. -/
def Address.anonymous : Address := 0

/-- Modelled from the spec: a timestamp in seconds since the epoch. -/
abbrev Timestamp : Type := Nat

/-- Rust static EPOCH of the bridge: Timestamp::new(0), the epoch
    sentinel. -/
def EPOCH : Timestamp := 0

/-- Decidable equality of Except values, component wise. -/
instance instDecEqExcept {ε α : Type} [DecidableEq ε] [DecidableEq α] :
    DecidableEq (Except ε α) := fun a b =>
  match a, b with
  | .error e, .error f =>
    if h : e = f then .isTrue (by rw [h]) else .isFalse (fun hh => h (Except.error.inj hh))
  | .ok x, .ok y =>
    if h : x = y then .isTrue (by rw [h]) else .isFalse (fun hh => h (Except.ok.inj hh))
  | .error _, .ok _ => .isFalse (fun hh => Except.noConfusion hh)
  | .ok _, .error _ => .isFalse (fun hh => Except.noConfusion hh)

/-- Modelled from the spec: a response message of the external
    many-protocol crate, reduced to the fields the vendored deliver path
    reads and writes. The field named from in the source (a raw identifier)
    is embedded as from_; data is the Result payload of the backend. -/
structure ResponseMessage where
  from_ : Address
  version : Option Nat
  timestamp : Option Timestamp
  data : Except ManyError (List Nat)
deriving DecidableEq, Repr

/-- Modelled from the spec: the Default response message, with an empty
    successful payload. -/
def ResponseMessage.default : ResponseMessage :=
  { from_ := Address.anonymous, version := none, timestamp := none, data := .ok [] }

/-- Modelled from the spec: one configured migration of the bridge as seen
    by the activation check: its registered name, its activation block
    height and whether it is enabled. -/
structure MigrationEntry where
  name : String
  block_height : Nat
  enabled : Bool
deriving DecidableEq, Repr

/-- Modelled from the spec: the migration set of the bridge together with
    the height it currently considers. -/
structure MigrationSet where
  entries : List MigrationEntry
  current_height : Nat
deriving DecidableEq, Repr

/-- Modelled from the spec: is_active returns whether the set has a
    migration of the given name that is Enabled and whose block height is
    at most the current height. -/
def MigrationSet.is_active (s : MigrationSet) (name : String) : Bool :=
  s.entries.any fun e => e.name == name && e.enabled && decide (e.block_height ≤ s.current_height)

/-- Rust static LEGACY_ERROR_CODE_TRIGGER, identified by its migration
    name. -/
def LEGACY_ERROR_CODE_TRIGGER : String := "legacy_error_code"

/-- Rust deliver_tx legacy error code correction: a response error whose
    code is attribute specific is replaced by the same error with the
    Unknown code; anything else passes through. -/
def legacyRewriteData : Except ManyError (List Nat) → Except ManyError (List Nat)
  | .error err =>
    .error (if err.code.is_attribute_specific then err.with_code .Unknown else err)
  | x => x

/-- Rust deliver_tx response normalization: the from field is set to the
    anonymous address, the version is removed, and the timestamp is forced
    to the epoch sentinel. -/
def normalizeResponse (r : ResponseMessage) : ResponseMessage :=
  { r with from_ := Address.anonymous, version := none, timestamp := some EPOCH }

/-- The environment of one deliver_tx call: the outcomes of the external
    collaborators, in the order the function consults them. Envelope
    deserialization, the backend http round trip, response codecs of the
    many-protocol crate and the request validator are external to the
    vendored bridge source and enter as oracle fields; a migrations field
    of none stands for a poisoned migrations read lock, under which the
    source silently skips the rewrite. -/
structure DeliverEnv where
  parseTx : Except String CoseSign1
  send : Except String CoseSign1
  fromBytes : List Nat → Option ResponseMessage
  migrations : Option MigrationSet
  cachePoisoned : Bool
  message_executed : CoseSign1 → ResponseMessage → Except String Unit
  toBytes : ResponseMessage → Option (List Nat)

/-- Result of a deliver_tx call: either an ABCI response with a code, data
    bytes and a log line, or a process abort (the panic of the source). -/
inductive DeliverOutcome where
  | reply (code : Nat) (data : List Nat) (log : String)
  | fatal (msg : String)
deriving DecidableEq, Repr

/-- Rust fn DeliverOutcome discriminator: true exactly on the aborting
    outcome. -/
def DeliverOutcome.isFatal : DeliverOutcome → Bool
  | .fatal _ => true
  | _ => false

/-- Rust fn AbciApp::deliver_tx, the response value at the point where the
    cache hook and the serialization receive it: the backend payload (or
    the empty byte string when absent) is decoded, falling back to the
    default response message on failure, normalized, and, when the legacy
    error code migration is active under a healthy migrations lock, its
    error code is rewritten. -/
def deliveredResponse (env : DeliverEnv) (cose_sign : CoseSign1) : ResponseMessage :=
  let payload := cose_sign.payload.getD []
  let response := (env.fromBytes payload).getD ResponseMessage.default
  let response := normalizeResponse response
  match env.migrations with
  | some m =>
    if m.is_active LEGACY_ERROR_CODE_TRIGGER then
      { response with data := legacyRewriteData response.data }
    else
      response
  | none => response

/-- Rust fn AbciApp::deliver_tx (many-abci/src/abci_app.rs): envelope parse
    failure replies with deliver code 2, backend transport failure with
    code 1; otherwise the response is built as in deliveredResponse, a
    poisoned cache write lock replies with code 11, a failing
    message_executed hook aborts the process, and the response is
    serialized as the data of a code 0 reply, code 3 standing for a
    response serialization failure. -/
def deliverTx (env : DeliverEnv) : DeliverOutcome :=
  match env.parseTx with
  | .error err => .reply 2 [] err
  | .ok cose =>
    match env.send with
    | .error err => .reply 1 [] err
    | .ok cose_sign =>
      let response := deliveredResponse env cose_sign
      if env.cachePoisoned then
        .reply 11 [] ""
      else
        match env.message_executed cose response with
        | .error e => .fatal ("message_executed failed: " ++ e)
        | .ok _ =>
          match env.toBytes response with
          | some data => .reply 0 data ""
          | none => .reply 3 [] ""

/-- A deliver environment whose request validator cache lock is poisoned,
    all other collaborators healthy. -/
def envPoisoned : DeliverEnv :=
  { parseTx := .ok { payload := none }
    send := .ok { payload := none }
    fromBytes := fun _ => none
    migrations := some { entries := [], current_height := 0 }
    cachePoisoned := true
    message_executed := fun _ _ => .ok ()
    toBytes := fun _ => some [] }

/-- A deliver environment whose message_executed hook fails after the
    backend executed the message, all other collaborators healthy. -/
def envExecFail : DeliverEnv :=
  { parseTx := .ok { payload := none }
    send := .ok { payload := none }
    fromBytes := fun _ => none
    migrations := some { entries := [], current_height := 0 }
    cachePoisoned := false
    message_executed := fun _ _ => .error "cache divergence"
    toBytes := fun _ => some [] }

/-- C3 counterexample: a poisoned request validator cache lock during
    deliver_tx does not abort the process; the source returns a non fatal
    ABCI reply with deliver code 11 (RwLockPoisonedError), contradicting
    the claim that both determinism breach classes are fatal. -/
theorem C3_poisoned_lock_not_fatal :
    deliverTx envPoisoned = .reply 11 [] "" ∧ (deliverTx envPoisoned).isFatal = false := by
  constructor <;> rfl

/-- C3 amended: of the two failure classes in deliver_tx, only the
    message_executed failure aborts the process; a poisoned request
    validator cache lock is reported as the non fatal ABCI deliver code 11
    (RwLockPoisonedError). -/
theorem C3_determinism_breach_handling (env : DeliverEnv) (cose sign : CoseSign1)
    (e : String) (hp : env.parseTx = .ok cose) (hs : env.send = .ok sign) :
    (env.cachePoisoned = true → deliverTx env = .reply 11 [] "") ∧
      (env.cachePoisoned = false →
        env.message_executed cose (deliveredResponse env sign) = .error e →
        deliverTx env = .fatal ("message_executed failed: " ++ e)) := by
  constructor
  · intro h
    simp [deliverTx, hp, hs, h]
  · intro h hme
    simp [deliverTx, hp, hs, h, hme]

/-- Witness for C3: in the concrete environment whose cache hook fails
    post delivery, deliver_tx aborts, and in the one with the poisoned
    lock it replies with code 11. -/
theorem C3_determinism_breach_handling_witness :
    deliverTx envExecFail = .fatal ("message_executed failed: " ++ "cache divergence") ∧
      deliverTx envPoisoned = .reply 11 [] "" :=
  ⟨(C3_determinism_breach_handling envExecFail { payload := none } { payload := none }
      "cache divergence" rfl rfl).2 rfl rfl,
    (C3_determinism_breach_handling envPoisoned { payload := none } { payload := none }
      "" rfl rfl).1 rfl⟩

/-- Every response the deliver path hands to the cache hook and the
    serializer is normalized: anonymous sender, no version, epoch
    timestamp; the legacy rewrite only touches the data field. -/
theorem deliveredResponse_fields (env : DeliverEnv) (sign : CoseSign1) :
    (deliveredResponse env sign).from_ = Address.anonymous ∧
      (deliveredResponse env sign).version = none ∧
      (deliveredResponse env sign).timestamp = some EPOCH := by
  unfold deliveredResponse normalizeResponse
  cases env.migrations with
  | none => exact ⟨rfl, rfl, rfl⟩
  | some m =>
    by_cases h : m.is_active LEGACY_ERROR_CODE_TRIGGER = true
    · simp [h]
    · simp [h]

/-- C4: for every transaction successfully forwarded to the backend, the
    response serialized into the ABCI data field is the normalized one:
    its from field is the anonymous address, its version is none and its
    timestamp is the epoch sentinel 0, whatever the backend supplied. -/
theorem C4_response_normalization (env : DeliverEnv) (cose sign : CoseSign1)
    (bs : List Nat) (hp : env.parseTx = .ok cose) (hs : env.send = .ok sign)
    (hc : env.cachePoisoned = false)
    (hme : env.message_executed cose (deliveredResponse env sign) = .ok ())
    (hb : env.toBytes (deliveredResponse env sign) = some bs) :
    deliverTx env = .reply 0 bs "" ∧
      (deliveredResponse env sign).from_ = Address.anonymous ∧
      (deliveredResponse env sign).version = none ∧
      (deliveredResponse env sign).timestamp = some EPOCH := by
  refine ⟨?_, deliveredResponse_fields env sign⟩
  simp [deliverTx, hp, hs, hc, hme, hb]

/-- Witness for C4: a concrete backend response with a non anonymous
    sender, a version and a non zero timestamp is recorded normalized. -/
theorem C4_response_normalization_witness :
    deliverTx
        { parseTx := .ok { payload := none }
          send := .ok { payload := some [1] }
          fromBytes := fun _ =>
            some { from_ := 7, version := some 3, timestamp := some 9, data := .ok [2] }
          migrations := some { entries := [], current_height := 0 }
          cachePoisoned := false
          message_executed := fun _ _ => .ok ()
          toBytes := fun r => some (if r.timestamp = some 0 then [5] else [6]) } =
      .reply 0 [5] "" :=
  (C4_response_normalization _ { payload := none } { payload := some [1] } [5]
    rfl rfl rfl rfl rfl).1

/-- C7: with the backend payload decoding to a response r0, the legacy
    error code migration rewrites exactly the attribute specific error
    codes to Unknown when it is active, leaves other errors and successful
    payloads unchanged, and when it is not active (for instance before its
    block height) the data passes through unchanged. -/
theorem C7_legacy_error_code_rewrite (env : DeliverEnv) (sign : CoseSign1)
    (m : MigrationSet) (r0 : ResponseMessage)
    (hm : env.migrations = some m)
    (hr : env.fromBytes (sign.payload.getD []) = some r0) :
    (m.is_active LEGACY_ERROR_CODE_TRIGGER = true →
        (∀ a i err, r0.data = .error err → err.code = .AttributeSpecific a i →
          (deliveredResponse env sign).data = .error { code := .Unknown }) ∧
        (∀ err, r0.data = .error err → err.code.is_attribute_specific = false →
          (deliveredResponse env sign).data = .error err) ∧
        (∀ bs, r0.data = .ok bs → (deliveredResponse env sign).data = .ok bs)) ∧
      (m.is_active LEGACY_ERROR_CODE_TRIGGER = false →
        (deliveredResponse env sign).data = r0.data) := by
  have hd : (deliveredResponse env sign) =
      (if m.is_active LEGACY_ERROR_CODE_TRIGGER then
        { normalizeResponse r0 with data := legacyRewriteData (normalizeResponse r0).data }
      else normalizeResponse r0) := by
    simp [deliveredResponse, hm, hr]
  constructor
  · intro hact
    rw [hd, if_pos hact]
    refine ⟨?_, ?_, ?_⟩
    · intro a i err herr hcode
      simp [normalizeResponse, legacyRewriteData, herr, hcode,
        ManyErrorCode.is_attribute_specific, ManyError.with_code]
    · intro err herr hcode
      simp [normalizeResponse, legacyRewriteData, herr, hcode]
    · intro bs hok
      simp [normalizeResponse, legacyRewriteData, hok]
  · intro hact
    rw [hd, if_neg (by simp [hact])]
    simp [normalizeResponse]

/-- A migration set holding one enabled legacy error code migration at
    block height 10, viewed at the given current height. -/
def msetAt (h : Nat) : MigrationSet :=
  { entries := [{ name := "legacy_error_code", block_height := 10, enabled := true }]
    current_height := h }

/-- A backend response whose data is an error with the attribute specific
    code of attribute 4, index 1. -/
def respAttr : ResponseMessage :=
  { from_ := 7, version := none, timestamp := none
    data := .error { code := .AttributeSpecific 4 1 } }

/-- A deliver environment whose backend returns respAttr, with the legacy
    error code migration of msetAt viewed at the given height. -/
def envLegacy (h : Nat) : DeliverEnv :=
  { parseTx := .ok { payload := none }
    send := .ok { payload := some [1] }
    fromBytes := fun _ => some respAttr
    migrations := some (msetAt h)
    cachePoisoned := false
    message_executed := fun _ _ => .ok ()
    toBytes := fun _ => some [] }

/-- Witness for C7 at the literal values of the claim: a legacy error code
    migration configured at height 10 leaves an attribute specific error
    (attribute 4, index 1) untouched at height 9 and rewrites it to the
    Unknown code at height 10. -/
theorem C7_legacy_error_code_rewrite_witness :
    (deliveredResponse (envLegacy 9) { payload := some [1] }).data =
        .error { code := .AttributeSpecific 4 1 } ∧
      (deliveredResponse (envLegacy 10) { payload := some [1] }).data =
        .error { code := .Unknown } := by
  constructor
  · exact (C7_legacy_error_code_rewrite (envLegacy 9) { payload := some [1] }
      (msetAt 9) respAttr rfl rfl).2 (by decide)
  · exact ((C7_legacy_error_code_rewrite (envLegacy 10) { payload := some [1] }
      (msetAt 10) respAttr rfl rfl).1 (by decide)).1 4 1
      { code := .AttributeSpecific 4 1 } rfl rfl

/-- C10: when the backend reply carries no payload or a payload that does
    not decode as a response message, deliver_tx reports no error: the
    default response message is substituted, normalized as usual, and the
    call replies with code 0 and the serialized default response. -/
theorem C10_default_response_on_bad_payload (env : DeliverEnv) (cose sign : CoseSign1)
    (bs : List Nat) (hp : env.parseTx = .ok cose) (hs : env.send = .ok sign)
    (hr : env.fromBytes (sign.payload.getD []) = none)
    (hc : env.cachePoisoned = false)
    (hme : env.message_executed cose (deliveredResponse env sign) = .ok ())
    (hb : env.toBytes (deliveredResponse env sign) = some bs) :
    deliverTx env = .reply 0 bs "" ∧
      deliveredResponse env sign = normalizeResponse ResponseMessage.default := by
  have hd : deliveredResponse env sign = normalizeResponse ResponseMessage.default := by
    simp only [deliveredResponse]
    rw [hr]
    cases env.migrations with
    | none => rfl
    | some m =>
      by_cases h : m.is_active LEGACY_ERROR_CODE_TRIGGER = true
      · simp only [h, if_true]
        rfl
      · simp only [h, if_false]
        rfl
  exact ⟨by simp [deliverTx, hp, hs, hc, hme, hb], hd⟩

/-- Witness for C10: a backend reply with an absent payload produces a
    code 0 reply carrying the serialized normalized default response. -/
theorem C10_default_response_on_bad_payload_witness :
    deliverTx
        { parseTx := .ok { payload := none }
          send := .ok { payload := none }
          fromBytes := fun _ => none
          migrations := some { entries := [], current_height := 0 }
          cachePoisoned := false
          message_executed := fun _ _ => .ok ()
          toBytes := fun _ => some [9] } =
      .reply 0 [9] "" :=
  (C10_default_response_on_bad_payload _ { payload := none } { payload := none } [9]
    rfl rfl rfl rfl rfl rfl).1

/-! Event identifiers, from many-modules/src/_4_events.rs: a variable
    width big endian byte string with BigUint arithmetic. -/

/-- Rust struct EventId, a byte string (transparent over a ByteVec). -/
abbrev EventId : Type := List Nat

/-- Value of a big endian byte string, as read by
    BigUint::from_bytes_be. -/
def beToNat (l : List Nat) : Nat :=
  l.foldl (fun acc b => acc * 256 + b) 0

/-- Minimal big endian digits of a number, with explicit fuel for
    structural recursion; a fuel of n is always sufficient because
    n < 256 ^ n for every positive n. -/
def beDigitsAux : Nat → Nat → List Nat
  | 0, _ => []
  | f + 1, n => if n = 0 then [] else beDigitsAux f (n / 256) ++ [n % 256]

/-- Rust BigUint::to_bytes_be: the minimal big endian byte encoding of a
    number, with zero encoded as the single byte 0. -/
def natToBytesBE (n : Nat) : List Nat :=
  if n = 0 then [0] else beDigitsAux n n

/-- Rust u64::to_be_bytes: the eight byte big endian encoding; the value
    is reduced modulo 2 ^ 64 as every u64 value is. -/
def u64BeBytes (v : Nat) : List Nat :=
  [v % 2 ^ 64 / 2 ^ 56 % 256, v % 2 ^ 64 / 2 ^ 48 % 256, v % 2 ^ 64 / 2 ^ 40 % 256,
    v % 2 ^ 64 / 2 ^ 32 % 256, v % 2 ^ 64 / 2 ^ 24 % 256, v % 2 ^ 64 / 2 ^ 16 % 256,
    v % 2 ^ 64 / 2 ^ 8 % 256, v % 2 ^ 64 % 256]

/-- Rust impl From of u64 for EventId: the to_be_bytes encoding, leading
    zeros included. -/
def EventId.fromU64 (v : Nat) : EventId := u64BeBytes v

/-- Rust impl Add of u32 for EventId: the byte string is read as a
    BigUint, the addend is added, and the minimal big endian bytes of the
    sum are taken. -/
def EventId.addU32 (id : EventId) (k : Nat) : EventId :=
  natToBytesBE (beToNat id + k)

theorem beToNat_append (l : List Nat) (b : Nat) :
    beToNat (l ++ [b]) = beToNat l * 256 + b := by
  simp [beToNat, List.foldl_append]

theorem beToNat_beDigitsAux (f : Nat) :
    ∀ n, n < 256 ^ f → beToNat (beDigitsAux f n) = n := by
  induction f with
  | zero =>
    intro n h
    have hn : n = 0 := Nat.lt_one_iff.mp (by simpa using h)
    simp [beDigitsAux, hn, beToNat]
  | succ f ih =>
    intro n h
    by_cases h0 : n = 0
    · simp [beDigitsAux, h0, beToNat]
    · rw [beDigitsAux, if_neg h0, beToNat_append, ih (n / 256) ?_]
      · omega
      · rw [Nat.div_lt_iff_lt_mul (by norm_num)]
        calc n < 256 ^ (f + 1) := h
          _ = 256 ^ f * 256 := pow_succ 256 f

theorem beToNat_natToBytesBE (n : Nat) : beToNat (natToBytesBE n) = n := by
  unfold natToBytesBE
  by_cases h : n = 0
  · simp [h, beToNat]
  · rw [if_neg h]
    exact beToNat_beDigitsAux n n (Nat.lt_pow_self (by norm_num) n)

theorem beToNat_u64BeBytes (v : Nat) : beToNat (u64BeBytes v) = v % 2 ^ 64 := by
  simp [u64BeBytes, beToNat]
  omega

/-! Merkle backed key value store. Modelled from the spec: the merk crate
    is external; apply stages a batch, commit materializes the staged
    batch atomically, get sees staged writes, and the root hash is a pure
    function of the committed entries. -/

/-- Rust enum Op of the merk batch: put a value or delete the key. -/
inductive MerkOp where
  | Put (value : List Nat)
  | Delete
deriving DecidableEq, Repr

/-- Modelled from the spec: the merk store as its committed association
    list of entries plus the batch staged since the last commit. -/
structure Merk where
  committed : List (List Nat × List Nat)
  staged : List (List Nat × MerkOp)
deriving DecidableEq, Repr

/-- Lookup in an association list of committed entries. -/
def assocGet (l : List (List Nat × List Nat)) (k : List Nat) : Option (List Nat) :=
  (l.find? fun e => decide (e.1 = k)).map (·.2)

/-- Insert or replace a binding in an association list. -/
def assocSet (l : List (List Nat × List Nat)) (k v : List Nat) :
    List (List Nat × List Nat) :=
  if l.any fun e => decide (e.1 = k) then
    l.map fun e => if e.1 = k then (k, v) else e
  else
    l ++ [(k, v)]

/-- Remove a binding from an association list. -/
def assocDel (l : List (List Nat × List Nat)) (k : List Nat) :
    List (List Nat × List Nat) :=
  l.filter fun e => decide (e.1 ≠ k)

/-- Apply one staged operation to the committed entries. -/
def applyOp (c : List (List Nat × List Nat)) (e : List Nat × MerkOp) :
    List (List Nat × List Nat) :=
  match e.2 with
  | .Put v => assocSet c e.1 v
  | .Delete => assocDel c e.1

/-- Modelled from the spec: get reads staged writes first (latest staged
    operation on the key wins) and falls back to the committed entries. -/
def Merk.get (m : Merk) (k : List Nat) : Option (List Nat) :=
  match m.staged.reverse.find? fun e => decide (e.1 = k) with
  | some (_, .Put v) => some v
  | some (_, .Delete) => none
  | none => assocGet m.committed k

/-- Modelled from the spec: apply stages a batch of operations. -/
def Merk.apply (m : Merk) (batch : List (List Nat × MerkOp)) : Merk :=
  { m with staged := m.staged ++ batch }

/-- Modelled from the spec: commit materializes the staged batch into the
    committed entries and clears it. -/
def Merk.commitStore (m : Merk) : Merk :=
  { committed := m.staged.foldl applyOp m.committed, staged := [] }

/-- Modelled from the spec: the root hash is a pure function of the
    committed key value set; the concrete function is irrelevant to the
    claims and is taken as the flattened entries. -/
def Merk.root_hash (m : Merk) : List Nat :=
  m.committed.foldr (fun e acc => e.1 ++ e.2 ++ acc) []

/-- Byte encoding of a key string. -/
def strBytes (s : String) : List Nat := s.data.map fun c => c.toNat

/-- Reserved key of the block height. -/
def heightKey : List Nat := strBytes "/height"

/-- Reserved key of the latest event id. -/
def latestEventIdKey : List Nat := strBytes "/latest_event_id"

/-- Rust struct AbciCommitInfo of many-modules. -/
structure AbciCommitInfo where
  retain_height : Nat
  hash : List Nat
deriving DecidableEq, Repr

/-! The kvstore storage, from many-kvstore/src/storage.rs. -/

/-- Rust struct KvStoreStorage, reduced to the fields its commit path
    touches; the acl and subresource fields are omitted. The stored latest
    event id value is embedded as its raw bytes rather than their cbor
    byte string wrapping. -/
structure KvStoreStorage where
  persistent_store : Merk
  blockchain : Bool
  latest_event_id : EventId
  current_hash : Option (List Nat)
deriving DecidableEq, Repr

/-- Rust fn KvStoreStorage::get_height: the committed height or zero. -/
def KvStoreStorage.get_height (s : KvStoreStorage) : Nat :=
  match s.persistent_store.get heightKey with
  | some v => beToNat v
  | none => 0

/-- Rust fn KvStoreStorage::inc_height: stages the incremented height and
    returns the previous height. -/
def KvStoreStorage.inc_height (s : KvStoreStorage) : Nat × KvStoreStorage :=
  let current_height := s.get_height
  (current_height,
    { s with persistent_store :=
        s.persistent_store.apply [(heightKey, .Put (u64BeBytes (current_height + 1)))] })

/-- Rust fn KvStoreStorage::commit (many-kvstore/src/storage.rs): stages
    the height increment, stages the in-memory latest event id under its
    reserved key, commits the staged batch, and caches the resulting root
    hash. The in-memory latest event id is left untouched: the source has
    no reset step. -/
def KvStoreStorage.commit (s : KvStoreStorage) : AbciCommitInfo × KvStoreStorage :=
  let (_, s1) := s.inc_height
  let s2 := { s1 with persistent_store :=
      s1.persistent_store.apply [(latestEventIdKey, .Put s1.latest_event_id)] }
  let s3 := { s2 with persistent_store := s2.persistent_store.commitStore }
  let hash := s3.persistent_store.root_hash
  ({ retain_height := 0, hash := hash }, { s3 with current_hash := some hash })

/-- Modelled from the spec: HEIGHT_EVENTID_SHIFT of the ledger event
    storage module, which is not vendored; the composite id splits a 64
    bit value into a block height and an in-block counter, embedded with
    the 32 bit split. -/
def HEIGHT_EVENTID_SHIFT : Nat := 32

/-! The ledger storage commit, from many-ledger/src/storage/abci.rs. -/

/-- Rust struct LedgerStorage, reduced to the fields its commit path
    touches. -/
structure LedgerStorage where
  persistent_store : Merk
  latest_tid : EventId
  current_hash : Option (List Nat)
deriving DecidableEq, Repr

/-- Rust fn LedgerStorage::get_height: the committed height or zero. -/
def LedgerStorage.get_height (s : LedgerStorage) : Nat :=
  match s.persistent_store.get heightKey with
  | some v => beToNat v
  | none => 0

/-- Modelled from the spec: LedgerStorage::inc_height is not vendored; it
    stages the incremented height as part of the current batch and
    returns the height being committed, so that the migration engine is
    invoked at height plus one (the next height) and the reset rule makes
    the ids of the next block larger than those of this one. -/
def LedgerStorage.inc_height (s : LedgerStorage) : Nat × LedgerStorage :=
  let height := s.get_height + 1
  (height,
    { s with persistent_store :=
        s.persistent_store.apply [(heightKey, .Put (u64BeBytes height))] })

/-- Modelled from the spec: LedgerStorage::commit_storage is not
    vendored; at commit time the reserved latest event id key is written
    with the in-memory value and then the staged batch is committed. -/
def LedgerStorage.commit_storage (s : LedgerStorage) : LedgerStorage :=
  let s1 := { s with persistent_store :=
      s.persistent_store.apply [(latestEventIdKey, .Put s.latest_tid)] }
  { s1 with persistent_store := s1.persistent_store.commitStore }

/-- Rust fn LedgerStorage::commit (many-ledger/src/storage/abci.rs): after
    the multisig timeout cleanup (a domain operation embedded as the
    identity), the height is incremented, the storage committed, the
    migration engine run at the next height (entering as the migUpdate
    argument), the storage committed again, the root hash cached, and the
    in-memory latest event id reset to the committed height shifted by
    HEIGHT_EVENTID_SHIFT. -/
def LedgerStorage.commit (migUpdate : Merk → Merk) (s : LedgerStorage) :
    AbciCommitInfo × LedgerStorage :=
  let (height, s1) := s.inc_height
  let s2 := s1.commit_storage
  let s3 := { s2 with persistent_store := migUpdate s2.persistent_store }
  let s4 := s3.commit_storage
  let hash := s4.persistent_store.root_hash
  ({ retain_height := 0, hash := hash },
    { s4 with current_hash := some hash
              latest_tid := EventId.fromU64 (height <<< HEIGHT_EVENTID_SHIFT) })

theorem assocGet_assocSet_self (c : List (List Nat × List Nat)) (k v : List Nat) :
    assocGet (assocSet c k v) k = some v := by
  unfold assocGet assocSet
  by_cases h : c.any fun e => decide (e.1 = k)
  · rw [if_pos h]
    induction c with
    | nil => simp at h
    | cons e tl ih =>
      by_cases he : e.1 = k
      · simp [he, List.find?]
      · simp only [List.any_cons, Bool.or_eq_true] at h
        rcases h with h | h
        · exact absurd (of_decide_eq_true h) he
        · simpa [List.find?, he] using ih (by simpa using h)
  · rw [if_neg h]
    induction c with
    | nil => simp [List.find?]
    | cons e tl ih =>
      simp only [List.any_cons, Bool.or_eq_true, not_or] at h
      have he : ¬ e.1 = k := by simpa using h.1
      simpa [List.find?, he] using ih (by simpa using h.2)

/-- The kvstore counterexample state: a committed genesis latest event id
    of a single zero byte, no staged writes, height zero, and an in-memory
    latest event id of value five. -/
def kvSt0 : KvStoreStorage :=
  { persistent_store := { committed := [(latestEventIdKey, [0])], staged := [] }
    blockchain := true
    latest_event_id := EventId.fromU64 5
    current_hash := none }

/-- C5 counterexample: the kvstore commit leaves the in-memory latest
    event id exactly as it was (value five), which differs from the reset
    value EventId::from(height shifted by HEIGHT_EVENTID_SHIFT) both for
    the previous height 0 and for the new height 1, so the claimed reset
    step does not exist in the kvstore storage. -/
theorem C5_kvstore_no_reset :
    (kvSt0.commit).2.latest_event_id = EventId.fromU64 5 ∧
      EventId.fromU64 5 ≠ EventId.fromU64 (0 <<< HEIGHT_EVENTID_SHIFT) ∧
      EventId.fromU64 5 ≠ EventId.fromU64 (1 <<< HEIGHT_EVENTID_SHIFT) := by
  refine ⟨rfl, by decide, by decide⟩

/-- C5 amended: both commits write the reserved latest event id key with
    the in-memory value, commit the staged batch, and cache the resulting
    root hash; but only the ledger commit then resets the in-memory latest
    event id to EventId::from(height shifted by HEIGHT_EVENTID_SHIFT),
    while the kvstore commit leaves it unchanged. -/
theorem C5_commit_steps (kv : KvStoreStorage) (led : LedgerStorage) :
    ((kv.commit).2.latest_event_id = kv.latest_event_id ∧
        assocGet (kv.commit).2.persistent_store.committed latestEventIdKey =
          some kv.latest_event_id ∧
        (kv.commit).2.current_hash = some (kv.commit).2.persistent_store.root_hash ∧
        (kv.commit).2.persistent_store.staged = []) ∧
      ((led.commit id).2.latest_tid =
          EventId.fromU64 ((led.get_height + 1) <<< HEIGHT_EVENTID_SHIFT) ∧
        assocGet (led.commit id).2.persistent_store.committed latestEventIdKey =
          some led.latest_tid ∧
        (led.commit id).2.current_hash = some (led.commit id).2.persistent_store.root_hash ∧
        (led.commit id).2.persistent_store.staged = []) := by
  constructor
  · refine ⟨rfl, ?_, rfl, rfl⟩
    simp [KvStoreStorage.commit, KvStoreStorage.inc_height, Merk.apply, Merk.commitStore,
      List.foldl_append, applyOp]
    exact assocGet_assocSet_self _ _ _
  · refine ⟨rfl, ?_, rfl, rfl⟩
    simp [LedgerStorage.commit, LedgerStorage.inc_height, LedgerStorage.commit_storage,
      Merk.apply, Merk.commitStore, List.foldl_append, applyOp, id]
    exact assocGet_assocSet_self _ _ _

/-! The event id trace of the ledger across blocks, from the reset rule of
    many-ledger/src/storage/abci.rs and the EventId arithmetic of
    many-modules/src/_4_events.rs. -/

/-- The event id state of the ledger: the in-memory latest id, the number
    of committed blocks, and the assigned event ids in logging order. -/
structure EvState where
  latest : EventId
  height : Nat
  ids : List EventId
deriving DecidableEq, Repr

/-- Modelled from the spec: log assigns the next event id by incrementing
    the in-memory latest id by one (the EventId Add instance of the
    source) and appends it to the log. -/
def logEvent (s : EvState) : EvState :=
  let nid := EventId.addU32 s.latest 1
  { s with latest := nid, ids := s.ids ++ [nid] }

/-- Rust reset rule of LedgerStorage::commit: the height advances by one
    and the in-memory latest id becomes EventId::from of the new height
    shifted left by HEIGHT_EVENTID_SHIFT as a u64. -/
def commitBlock (s : EvState) : EvState :=
  let h := s.height + 1
  { s with height := h, latest := EventId.fromU64 (h <<< HEIGHT_EVENTID_SHIFT) }

/-- Modelled from the spec: the genesis latest event id seeded at store
    creation, the single byte zero. -/
def genesisEv : EvState := { latest := [0], height := 0, ids := [] }

/-- Log n events in the current block. -/
def logN : Nat → EvState → EvState
  | 0, s => s
  | n + 1, s => logN n (logEvent s)

/-- Run a sequence of blocks, logging the given number of events in each
    and committing after each block. -/
def runBlocks : List Nat → EvState → EvState
  | [], s => s
  | n :: rest, s => runBlocks rest (commitBlock (logN n s))

/-- Rust derived lexicographic ordering of byte strings (the derived Ord
    of a u8 vector, which the derived Ord of EventId delegates to): true
    exactly when the first string is strictly smaller. -/
def lexLt : List Nat → List Nat → Bool
  | [], [] => false
  | [], _ :: _ => true
  | _ :: _, [] => false
  | a :: as, b :: bs => if a < b then true else if b < a then false else lexLt as bs

/-- C2 counterexample: log two events in the first block (ids the single
    bytes 1 and 2), commit, and log one event in the second block; its id
    is the five byte string of the value 2 to the 32 plus one, which is
    lexicographically smaller than the single byte 2 assigned before it,
    because EventId::from of a u64 keeps leading zeros while the BigUint
    increment produces minimal bytes of a different length. -/
theorem C2_lex_order_violated :
    (logEvent (runBlocks [2] genesisEv)).ids = [[1], [2], [1, 0, 0, 0, 1]] ∧
      lexLt [2] [1, 0, 0, 0, 1] = false := by
  constructor
  · decide
  · decide

/-- Logging preserves strict numeric growth of the trace: each new id is
    one above the in-memory latest, which dominates every logged id. -/
theorem logN_invariant (n : Nat) :
    ∀ s : EvState,
      List.Pairwise (fun a b => beToNat a < beToNat b) s.ids →
      (∀ id ∈ s.ids, beToNat id ≤ beToNat s.latest) →
      List.Pairwise (fun a b => beToNat a < beToNat b) (logN n s).ids ∧
        (∀ id ∈ (logN n s).ids, beToNat id ≤ beToNat (logN n s).latest) ∧
        beToNat (logN n s).latest = beToNat s.latest + n ∧
        (logN n s).height = s.height := by
  induction n with
  | zero =>
    intro s hp hb
    exact ⟨hp, hb, by simp [logN], rfl⟩
  | succ k ih =>
    intro s hp hb
    have hlat : beToNat (logEvent s).latest = beToNat s.latest + 1 := by
      simp [logEvent, EventId.addU32, beToNat_natToBytesBE]
    have hids : (logEvent s).ids = s.ids ++ [EventId.addU32 s.latest 1] := rfl
    have hnv : beToNat (EventId.addU32 s.latest 1) = beToNat s.latest + 1 :=
      beToNat_natToBytesBE _
    have hpe : List.Pairwise (fun a b => beToNat a < beToNat b) (logEvent s).ids := by
      rw [hids, List.pairwise_append]
      refine ⟨hp, List.pairwise_singleton _ _, ?_⟩
      intro a ha b hbm
      rw [List.mem_singleton] at hbm
      subst hbm
      have := hb a ha
      omega
    have hbe : ∀ id ∈ (logEvent s).ids, beToNat id ≤ beToNat (logEvent s).latest := by
      intro id hid
      rw [hids, List.mem_append] at hid
      have hle : beToNat (logEvent s).latest = beToNat s.latest + 1 := hlat
      rcases hid with hid | hid
      · have := hb id hid
        omega
      · rw [List.mem_singleton] at hid
        subst hid
        omega
    obtain ⟨p1, p2, p3, p4⟩ := ih (logEvent s) hpe hbe
    refine ⟨p1, p2, ?_, ?_⟩
    · rw [show logN (k + 1) s = logN k (logEvent s) from rfl, p3, hlat]
      omega
    · rw [show logN (k + 1) s = logN k (logEvent s) from rfl, p4]
      rfl

/-- Running blocks from any state whose latest id is the height shifted
    value keeps the trace strictly increasing numerically, provided no
    block logs more than 2 to the HEIGHT_EVENTID_SHIFT events and the
    chain stays below 2 to the HEIGHT_EVENTID_SHIFT blocks. -/
theorem runBlocks_invariant (blocks : List Nat) :
    ∀ s : EvState,
      (∀ n ∈ blocks, n ≤ 2 ^ 32) →
      s.height + blocks.length < 2 ^ 32 →
      List.Pairwise (fun a b => beToNat a < beToNat b) s.ids →
      (∀ id ∈ s.ids, beToNat id ≤ beToNat s.latest) →
      beToNat s.latest = s.height * 2 ^ 32 →
      List.Pairwise (fun a b => beToNat a < beToNat b) (runBlocks blocks s).ids ∧
        (∀ id ∈ (runBlocks blocks s).ids,
          beToNat id ≤ beToNat (runBlocks blocks s).latest) ∧
        beToNat (runBlocks blocks s).latest = (runBlocks blocks s).height * 2 ^ 32 ∧
        (runBlocks blocks s).height = s.height + blocks.length := by
  induction blocks with
  | nil =>
    intro s _ _ hp hb hl
    exact ⟨hp, hb, hl, by simp [runBlocks]⟩
  | cons n rest ih =>
    intro s hcap hh hp hb hl
    obtain ⟨q1, q2, q3, q4⟩ := logN_invariant n s hp hb
    have hn : n ≤ 2 ^ 32 := hcap n (List.mem_cons_self n rest)
    have hheight : s.height + 1 < 2 ^ 32 := by
      have := hh
      simp only [List.length_cons] at this
      omega
    have hct_ids : (commitBlock (logN n s)).ids = (logN n s).ids := rfl
    have hct_height : (commitBlock (logN n s)).height = s.height + 1 := by
      show (logN n s).height + 1 = s.height + 1
      rw [q4]
    have hct_latest : beToNat (commitBlock (logN n s)).latest = (s.height + 1) * 2 ^ 32 := by
      show beToNat (EventId.fromU64 (((logN n s).height + 1) <<< HEIGHT_EVENTID_SHIFT)) = _
      rw [q4]
      show beToNat (u64BeBytes ((s.height + 1) <<< 32)) = _
      rw [beToNat_u64BeBytes, Nat.shiftLeft_eq]
      apply Nat.mod_eq_of_lt
      have h64 : (2 : Nat) ^ 64 = 2 ^ 32 * 2 ^ 32 := by norm_num
      rw [h64]
      exact Nat.mul_lt_mul_of_lt_of_le hheight (le_refl _) (by norm_num)
    have hbc : ∀ id ∈ (commitBlock (logN n s)).ids,
        beToNat id ≤ beToNat (commitBlock (logN n s)).latest := by
      intro id hid
      rw [hct_ids] at hid
      have h1 := q2 id hid
      rw [q3, hl] at h1
      rw [hct_latest]
      have : s.height * 2 ^ 32 + n ≤ (s.height + 1) * 2 ^ 32 := by
        have hx : (s.height + 1) * 2 ^ 32 = s.height * 2 ^ 32 + 2 ^ 32 := by ring
        omega
      omega
    have hpc : List.Pairwise (fun a b => beToNat a < beToNat b)
        (commitBlock (logN n s)).ids := by
      rw [hct_ids]
      exact q1
    have hhc : (commitBlock (logN n s)).height + rest.length < 2 ^ 32 := by
      rw [hct_height]
      simp only [List.length_cons] at hh
      omega
    obtain ⟨r1, r2, r3, r4⟩ := ih (commitBlock (logN n s)) (fun k hk => hcap k
      (List.mem_cons_of_mem n hk)) hhc hpc hbc (by rw [hct_latest, hct_height])
    refine ⟨r1, r2, r3, ?_⟩
    show (runBlocks rest (commitBlock (logN n s))).height = s.height + (n :: rest).length
    rw [r4, hct_height]
    simp only [List.length_cons]
    omega

/-- C2 amended: the event ids assigned over the life of the chain are
    strictly increasing as numbers (the big endian value of their byte
    encoding), including across every height boundary, provided no block
    logs more than 2 to the HEIGHT_EVENTID_SHIFT events and the chain has
    fewer than 2 to the HEIGHT_EVENTID_SHIFT blocks; the lexicographic
    byte comparison of the claim agrees with the numeric order only for
    encodings of equal length and is violated at length changes. -/
theorem C2_event_ids_numerically_increasing (blocks : List Nat) (m : Nat)
    (hcap : ∀ n ∈ blocks, n ≤ 2 ^ HEIGHT_EVENTID_SHIFT)
    (hlen : blocks.length < 2 ^ HEIGHT_EVENTID_SHIFT) :
    List.Pairwise (fun a b => beToNat a < beToNat b)
      (logN m (runBlocks blocks genesisEv)).ids := by
  have h0 : beToNat genesisEv.latest = genesisEv.height * 2 ^ 32 := by
    simp [genesisEv, beToNat]
  obtain ⟨r1, r2, _, _⟩ := runBlocks_invariant blocks genesisEv hcap
    (by simpa [genesisEv] using hlen) (by simp [genesisEv]) (by simp [genesisEv]) h0
  exact (logN_invariant m _ r1 r2).1

/-- Witness for C2: two events in the first block and one in the second
    give the ids 1, 2 and 2 to the 32 plus one, numerically strictly
    increasing across the height boundary. -/
theorem C2_event_ids_numerically_increasing_witness :
    List.Pairwise (fun a b => beToNat a < beToNat b)
      (logN 1 (runBlocks [2] genesisEv)).ids :=
  C2_event_ids_numerically_increasing [2] 1 (by decide) (by decide)

/-! The event model, from many-modules/src/_4_events.rs. -/

/-- Rust type Symbol, an alias of Address. -/
abbrev Symbol : Type := Address

/-- Modelled from the spec: a token amount of the external many-types
    crate, opaque to the event codec. -/
abbrev TokenAmount : Type := Nat

/-- Modelled from the spec: a byte string field. -/
abbrev ByteVec : Type := List Nat

/-- Modelled from the spec: the role map of an account event (a map from
    addresses to role sets of the external account module), opaque to the
    event codec. -/
abbrev RoleMap : Type := List (Address × List Nat)

/-- Modelled from the spec: the feature set of an account event, opaque
    to the event codec. -/
abbrev FeatureSet : Type := Nat

/-- Rust struct SendArgs, as in the vendored send module: an optional
    source address, a destination, an amount and a symbol. The fields
    named from and to in the source are embedded as from_ and to_. -/
structure SendArgs where
  from_ : Option Address
  to_ : Address
  amount : TokenAmount
  symbol : Symbol
deriving DecidableEq, Repr

/-- Rust enum EventKind, one case per define_event entry. -/
inductive EventKind where
  | Send
  | AccountCreate
  | AccountSetDescription
  | AccountAddRoles
  | AccountRemoveRoles
  | AccountDisable
  | AccountAddFeatures
  | AccountMultisigSubmit
  | AccountMultisigApprove
  | AccountMultisigRevoke
  | AccountMultisigExecute
  | AccountMultisigWithdraw
  | AccountMultisigSetDefaults
  | AccountMultisigExpired
deriving DecidableEq, Repr

/-- Rust impl From of EventKind for AttributeRelatedIndex, flattened, as
    listed in the define_event invocation. -/
def eventKindIndex : EventKind → List Nat
  | .Send => [6, 0]
  | .AccountCreate => [9, 0]
  | .AccountSetDescription => [9, 1]
  | .AccountAddRoles => [9, 2]
  | .AccountRemoveRoles => [9, 3]
  | .AccountDisable => [9, 4]
  | .AccountAddFeatures => [9, 5]
  | .AccountMultisigSubmit => [9, 1, 0]
  | .AccountMultisigApprove => [9, 1, 1]
  | .AccountMultisigRevoke => [9, 1, 2]
  | .AccountMultisigExecute => [9, 1, 3]
  | .AccountMultisigWithdraw => [9, 1, 4]
  | .AccountMultisigSetDefaults => [9, 1, 5]
  | .AccountMultisigExpired => [9, 1, 6]

/-- Rust impl TryFrom of AttributeRelatedIndex for EventKind: the partial
    inverse of the flattened index, failing on unknown indexes. -/
def kindOfIndex : List Nat → Option EventKind
  | [6, 0] => some .Send
  | [9, 0] => some .AccountCreate
  | [9, 1] => some .AccountSetDescription
  | [9, 2] => some .AccountAddRoles
  | [9, 3] => some .AccountRemoveRoles
  | [9, 4] => some .AccountDisable
  | [9, 5] => some .AccountAddFeatures
  | [9, 1, 0] => some .AccountMultisigSubmit
  | [9, 1, 1] => some .AccountMultisigApprove
  | [9, 1, 2] => some .AccountMultisigRevoke
  | [9, 1, 3] => some .AccountMultisigExecute
  | [9, 1, 4] => some .AccountMultisigWithdraw
  | [9, 1, 5] => some .AccountMultisigSetDefaults
  | [9, 1, 6] => some .AccountMultisigExpired
  | _ => none

/-- Rust enum AccountMultisigTransaction: the event kinds legal as a
    multisig payload, each carrying its method argument. Arguments other
    than the send and submit ones are argument structures of external
    modules, modelled as opaque values; the submit argument
    (SubmitTransactionArgs) is modelled from the spec as its nested
    transaction plus an opaque remainder, making the recursion of the
    source (a multisig submit may contain another multisig submit)
    explicit. -/
inductive AccountMultisigTransaction where
  | Send (arg : SendArgs)
  | AccountCreate (arg : Nat)
  | AccountSetDescription (arg : Nat)
  | AccountAddRoles (arg : Nat)
  | AccountRemoveRoles (arg : Nat)
  | AccountDisable (arg : Nat)
  | AccountAddFeatures (arg : Nat)
  | AccountMultisigSubmit (rest : Nat) (transaction : AccountMultisigTransaction)
  | AccountMultisigApprove (arg : Nat)
  | AccountMultisigRevoke (arg : Nat)
  | AccountMultisigExecute (arg : Nat)
  | AccountMultisigWithdraw (arg : Nat)
  | AccountMultisigSetDefaults (arg : Nat)
deriving DecidableEq, Repr

/-- Rust enum EventInfo, one variant per event kind with its typed
    fields, as listed in the define_event invocation. Field types the
    claims read (addresses, symbols, the nested transaction) keep their
    shape; the remaining external field types are opaque values. -/
inductive EventInfo where
  | Send (from_ : Address) (to_ : Address) (symbol : Symbol) (amount : TokenAmount)
  | AccountCreate (account : Address) (description : Option String) (roles : RoleMap)
      (features : FeatureSet)
  | AccountSetDescription (account : Address) (description : String)
  | AccountAddRoles (account : Address) (roles : RoleMap)
  | AccountRemoveRoles (account : Address) (roles : RoleMap)
  | AccountDisable (account : Address)
  | AccountAddFeatures (account : Address) (roles : RoleMap) (features : FeatureSet)
  | AccountMultisigSubmit (submitter : Address) (account : Address)
      (memo : Option String) (transaction : AccountMultisigTransaction)
      (token : Option ByteVec) (threshold : Nat) (timeout : Timestamp)
      (execute_automatically : Bool) (data : Option Nat)
  | AccountMultisigApprove (account : Address) (token : ByteVec) (approver : Address)
  | AccountMultisigRevoke (account : Address) (token : ByteVec) (revoker : Address)
  | AccountMultisigExecute (account : Address) (token : ByteVec)
      (executer : Option Address) (response : ResponseMessage)
  | AccountMultisigWithdraw (account : Address) (token : ByteVec) (withdrawer : Address)
  | AccountMultisigSetDefaults (submitter : Address) (account : Address)
      (threshold : Option Nat) (timeout_in_secs : Option Nat)
      (execute_automatically : Option Bool)
  | AccountMultisigExpired (account : Address) (token : ByteVec) (time : Timestamp)
deriving DecidableEq, Repr

/-- Rust fn AccountMultisigTransaction::addresses, exactly as in the
    source: it returns the empty set; the walk into the nested
    transaction is not implemented there. -/
def AccountMultisigTransaction.addresses (_tx : AccountMultisigTransaction) :
    Finset Address := ∅

/-- Rust fn AccountMultisigTransaction::symbol, exactly as in the source:
    it returns None; the source carries a TODO to implement the recursive
    check of inner transactions. -/
def AccountMultisigTransaction.symbol (_tx : AccountMultisigTransaction) :
    Option Symbol := none

/-- Rust fn EventInfo::addresses, per the define_event_info_addresses
    macro over the define_event field tags: every field tagged id is
    inserted, a field tagged id_non_null is inserted when present, and
    the addresses of the field tagged inner are appended afterwards. -/
def EventInfo.addresses : EventInfo → Finset Address
  | .Send from_ to_ _ _ => {from_, to_}
  | .AccountCreate account _ _ _ => {account}
  | .AccountSetDescription account _ => {account}
  | .AccountAddRoles account _ => {account}
  | .AccountRemoveRoles account _ => {account}
  | .AccountDisable account => {account}
  | .AccountAddFeatures account _ _ => {account}
  | .AccountMultisigSubmit submitter account _ transaction _ _ _ _ _ =>
    {submitter, account} ∪ transaction.addresses
  | .AccountMultisigApprove account _ approver => {account, approver}
  | .AccountMultisigRevoke account _ revoker => {account, revoker}
  | .AccountMultisigExecute account _ executer _ =>
    insert account
      (match executer with
       | some e => {e}
       | none => ∅)
  | .AccountMultisigWithdraw account _ withdrawer => {account, withdrawer}
  | .AccountMultisigSetDefaults submitter account _ _ _ => {submitter, account}
  | .AccountMultisigExpired account _ _ => {account}

/-- Rust fn EventInfo::symbol, per the define_event_info_symbol macro
    over the define_event field tags: the field tagged symbol is
    returned when one exists; otherwise the field tagged inner is
    consulted; otherwise None. -/
def EventInfo.symbol : EventInfo → Option Symbol
  | .Send _ _ symbol _ => some symbol
  | .AccountMultisigSubmit _ _ _ transaction _ _ _ _ _ =>
    (match transaction.symbol with
     | some s => some s
     | none => none)
  | _ => none

/-- The multisig submit event of the repository's own (disabled) inner
    addresses test: a submit whose nested transaction is a send between
    two further addresses. -/
def evSubmitSend : EventInfo :=
  .AccountMultisigSubmit 100 101 none
    (.Send { from_ := some 102, to_ := 103, amount := 5, symbol := 7 })
    none 0 0 false none

/-- C9 counterexample: the nested send transaction of evSubmitSend
    mentions the address 103 (its destination) and the symbol 7, yet
    addresses() returns only the submitter and the account of the outer
    event and symbol() returns none, because the walk into nested
    multisig transactions returns the empty set and None in the source. -/
theorem C9_nested_addresses_missing :
    103 ∉ evSubmitSend.addresses ∧
      evSubmitSend.addresses = {100, 101} ∧
      evSubmitSend.symbol = none := by
  refine ⟨by decide, by decide, rfl⟩

/-- C9 amended: addresses() returns exactly the id tagged fields of the
    event itself - for a multisig submit, the submitter and the account -
    because the addresses of the nested transaction are the empty set in
    the source; symbol() returns the symbol tagged field of the event
    itself, and the walk into the nested transaction of a multisig submit
    always yields None since AccountMultisigTransaction::symbol is
    unimplemented. -/
theorem C9_addresses_symbol_shallow (f t sym : Address) (am : TokenAmount)
    (sub acc : Address) (memo : Option String) (tx : AccountMultisigTransaction)
    (tok : Option ByteVec) (th : Nat) (ti : Timestamp) (ea : Bool) (d : Option Nat) :
    tx.addresses = ∅ ∧ tx.symbol = none ∧
      (EventInfo.AccountMultisigSubmit sub acc memo tx tok th ti ea d).addresses =
        {sub, acc} ∧
      (EventInfo.AccountMultisigSubmit sub acc memo tx tok th ti ea d).symbol = none ∧
      (EventInfo.Send f t sym am).addresses = {f, t} ∧
      (EventInfo.Send f t sym am).symbol = some sym := by
  refine ⟨rfl, rfl, ?_, rfl, rfl, rfl⟩
  show {sub, acc} ∪ tx.addresses = {sub, acc}
  rw [AccountMultisigTransaction.addresses, Finset.union_empty]

/-! The event codec, from the encode_event_info and
    define_multisig_event macros of many-modules/src/_4_events.rs. The
    minicbor encoder and decoder are embedded at the token level: the
    vendored code writes a map header, integer keys and field values and
    reads them back in the same vocabulary; the byte level serialization
    of each token belongs to the external minicbor crate. Values of
    external field types encode as single tokens carrying the value:
    their codecs are opaque to the vendored code and modelled from the
    spec. -/

/-- A token of the cbor encoder and decoder stream. -/
inductive Tok where
  | mapHdr (n : Nat)
  | uint (n : Nat)
  | nullTok
  | boolTok (b : Bool)
  | str (s : String)
  | bytes (l : List Nat)
  | attrIdx (l : List Nat)
  | addr (a : Address)
  | amount (n : TokenAmount)
  | time (t : Timestamp)
  | memo (s : String)
  | dat (d : Nat)
  | featureSet (f : FeatureSet)
  | roleMap (m : RoleMap)
  | resp (r : ResponseMessage)
  | sendArgs (a : SendArgs)
  | extArg (tag : Nat) (v : Nat)
  | submitArgs (rest : Nat)
deriving DecidableEq, Repr

/-- Encoding of an EventKind: its attribute related index token. -/
def encKind (k : EventKind) : Tok := .attrIdx (eventKindIndex k)

/-- Rust impl Encode for AccountMultisigTransaction: a two entry map with
    the kind at key 0 and the method argument at key 1; the submit
    argument recursively contains its nested transaction. -/
def encTx : AccountMultisigTransaction → List Tok
  | .Send a => [.mapHdr 2, .uint 0, encKind .Send, .uint 1, .sendArgs a]
  | .AccountCreate v => [.mapHdr 2, .uint 0, encKind .AccountCreate, .uint 1, .extArg 0 v]
  | .AccountSetDescription v =>
    [.mapHdr 2, .uint 0, encKind .AccountSetDescription, .uint 1, .extArg 1 v]
  | .AccountAddRoles v => [.mapHdr 2, .uint 0, encKind .AccountAddRoles, .uint 1, .extArg 2 v]
  | .AccountRemoveRoles v =>
    [.mapHdr 2, .uint 0, encKind .AccountRemoveRoles, .uint 1, .extArg 3 v]
  | .AccountDisable v => [.mapHdr 2, .uint 0, encKind .AccountDisable, .uint 1, .extArg 4 v]
  | .AccountAddFeatures v =>
    [.mapHdr 2, .uint 0, encKind .AccountAddFeatures, .uint 1, .extArg 5 v]
  | .AccountMultisigSubmit rest tx =>
    [.mapHdr 2, .uint 0, encKind .AccountMultisigSubmit, .uint 1, .submitArgs rest] ++ encTx tx
  | .AccountMultisigApprove v =>
    [.mapHdr 2, .uint 0, encKind .AccountMultisigApprove, .uint 1, .extArg 6 v]
  | .AccountMultisigRevoke v =>
    [.mapHdr 2, .uint 0, encKind .AccountMultisigRevoke, .uint 1, .extArg 7 v]
  | .AccountMultisigExecute v =>
    [.mapHdr 2, .uint 0, encKind .AccountMultisigExecute, .uint 1, .extArg 8 v]
  | .AccountMultisigWithdraw v =>
    [.mapHdr 2, .uint 0, encKind .AccountMultisigWithdraw, .uint 1, .extArg 9 v]
  | .AccountMultisigSetDefaults v =>
    [.mapHdr 2, .uint 0, encKind .AccountMultisigSetDefaults, .uint 1, .extArg 10 v]

/-- Rust impl Decode for AccountMultisigTransaction: requires a two entry
    map, the key 0, a known kind legal as a transaction, the key 1, and
    the argument of the kind; everything else is a decode error
    (embedded as none, the error messages being collapsed). -/
def decTx (ts : List Tok) : Option (AccountMultisigTransaction × List Tok) :=
  match ts with
  | .mapHdr 2 :: .uint 0 :: .attrIdx l :: .uint 1 :: rest =>
    (match kindOfIndex l with
     | some .Send =>
       (match rest with
        | .sendArgs a :: r => some (.Send a, r)
        | _ => none)
     | some .AccountCreate =>
       (match rest with
        | .extArg 0 v :: r => some (.AccountCreate v, r)
        | _ => none)
     | some .AccountSetDescription =>
       (match rest with
        | .extArg 1 v :: r => some (.AccountSetDescription v, r)
        | _ => none)
     | some .AccountAddRoles =>
       (match rest with
        | .extArg 2 v :: r => some (.AccountAddRoles v, r)
        | _ => none)
     | some .AccountRemoveRoles =>
       (match rest with
        | .extArg 3 v :: r => some (.AccountRemoveRoles v, r)
        | _ => none)
     | some .AccountDisable =>
       (match rest with
        | .extArg 4 v :: r => some (.AccountDisable v, r)
        | _ => none)
     | some .AccountAddFeatures =>
       (match rest with
        | .extArg 5 v :: r => some (.AccountAddFeatures v, r)
        | _ => none)
     | some .AccountMultisigSubmit =>
       (match rest with
        | .submitArgs sr :: r =>
          (match decTx r with
           | some (tx, r2) => some (.AccountMultisigSubmit sr tx, r2)
           | none => none)
        | _ => none)
     | some .AccountMultisigApprove =>
       (match rest with
        | .extArg 6 v :: r => some (.AccountMultisigApprove v, r)
        | _ => none)
     | some .AccountMultisigRevoke =>
       (match rest with
        | .extArg 7 v :: r => some (.AccountMultisigRevoke v, r)
        | _ => none)
     | some .AccountMultisigExecute =>
       (match rest with
        | .extArg 8 v :: r => some (.AccountMultisigExecute v, r)
        | _ => none)
     | some .AccountMultisigWithdraw =>
       (match rest with
        | .extArg 9 v :: r => some (.AccountMultisigWithdraw v, r)
        | _ => none)
     | some .AccountMultisigSetDefaults =>
       (match rest with
        | .extArg 10 v :: r => some (.AccountMultisigSetDefaults v, r)
        | _ => none)
     | some .AccountMultisigExpired => none
     | none => none)
  | _ => none


set_option maxHeartbeats 2000000 in
theorem decTx_encTx (tx : AccountMultisigTransaction) :
    ∀ r : List Tok, decTx (encTx tx ++ r) = some (tx, r) := by
  induction tx with
  | Send a => intro r; rfl
  | AccountCreate v => intro r; rfl
  | AccountSetDescription v => intro r; rfl
  | AccountAddRoles v => intro r; rfl
  | AccountRemoveRoles v => intro r; rfl
  | AccountDisable v => intro r; rfl
  | AccountAddFeatures v => intro r; rfl
  | AccountMultisigSubmit sr tx ih =>
    intro r
    simp only [encTx, List.cons_append, List.nil_append, List.append_assoc, encKind,
      eventKindIndex]
    rw [decTx]
    simp only [kindOfIndex]
    rw [ih r]
  | AccountMultisigApprove v => intro r; rfl
  | AccountMultisigRevoke v => intro r; rfl
  | AccountMultisigExecute v => intro r; rfl
  | AccountMultisigWithdraw v => intro r; rfl
  | AccountMultisigSetDefaults v => intro r; rfl

/-- Rust decode of one Address field value. -/
def decAddr : List Tok → Option (Address × List Tok)
  | .addr a :: r => some (a, r)
  | _ => none

/-- Rust decode of one TokenAmount field value. -/
def decAmount : List Tok → Option (TokenAmount × List Tok)
  | .amount n :: r => some (n, r)
  | _ => none

/-- Rust decode of one Timestamp field value. -/
def decTime : List Tok → Option (Timestamp × List Tok)
  | .time t :: r => some (t, r)
  | _ => none

/-- Rust decode of one String field value. -/
def decStr : List Tok → Option (String × List Tok)
  | .str s :: r => some (s, r)
  | _ => none

/-- Rust decode of one byte string field value. -/
def decBytes : List Tok → Option (ByteVec × List Tok)
  | .bytes l :: r => some (l, r)
  | _ => none

/-- Rust decode of one u64 field value. -/
def decU64 : List Tok → Option (Nat × List Tok)
  | .uint n :: r => some (n, r)
  | _ => none

/-- Rust decode of one boolean field value. -/
def decBool : List Tok → Option (Bool × List Tok)
  | .boolTok b :: r => some (b, r)
  | _ => none

/-- Rust decode of one memo field value. -/
def decMemo : List Tok → Option (String × List Tok)
  | .memo s :: r => some (s, r)
  | _ => none

/-- Rust decode of one multisig data field value. -/
def decDat : List Tok → Option (Nat × List Tok)
  | .dat d :: r => some (d, r)
  | _ => none

/-- Rust decode of one feature set field value. -/
def decFeat : List Tok → Option (FeatureSet × List Tok)
  | .featureSet f :: r => some (f, r)
  | _ => none

/-- Rust decode of one role map field value. -/
def decRoleMap : List Tok → Option (RoleMap × List Tok)
  | .roleMap m :: r => some (m, r)
  | _ => none

/-- Rust decode of one nested response message field value. -/
def decResp : List Tok → Option (ResponseMessage × List Tok)
  | .resp x :: r => some (x, r)
  | _ => none

/-- Rust decode of an optional field value: null or the value. -/
def decOpt {α : Type} (dec : List Tok → Option (α × List Tok)) :
    List Tok → Option (Option α × List Tok)
  | .nullTok :: r => some (none, r)
  | ts =>
    match dec ts with
    | some (v, r) => some (some v, r)
    | none => none

/-- Rust encode of an optional field value: null or the value token. -/
def encOpt {α : Type} (enc : α → Tok) : Option α → List Tok
  | none => [.nullTok]
  | some v => [enc v]

/-- Rust impl Encode for EventInfo, per the encode_event_info macro: a
    map of one plus the field count, the kind at key 0, then every field
    at its numbered key in order, optional fields included as null. -/
def encEventInfo : EventInfo → List Tok
  | .Send f t sy am =>
    [.mapHdr 5, .uint 0, encKind .Send, .uint 1, .addr f, .uint 2, .addr t,
      .uint 3, .addr sy, .uint 4, .amount am]
  | .AccountCreate a d ro fs =>
    [.mapHdr 5, .uint 0, encKind .AccountCreate, .uint 1, .addr a, .uint 2] ++
      encOpt Tok.str d ++ [.uint 3, .roleMap ro, .uint 4, .featureSet fs]
  | .AccountSetDescription a d =>
    [.mapHdr 3, .uint 0, encKind .AccountSetDescription, .uint 1, .addr a, .uint 2, .str d]
  | .AccountAddRoles a ro =>
    [.mapHdr 3, .uint 0, encKind .AccountAddRoles, .uint 1, .addr a, .uint 2, .roleMap ro]
  | .AccountRemoveRoles a ro =>
    [.mapHdr 3, .uint 0, encKind .AccountRemoveRoles, .uint 1, .addr a, .uint 2, .roleMap ro]
  | .AccountDisable a =>
    [.mapHdr 2, .uint 0, encKind .AccountDisable, .uint 1, .addr a]
  | .AccountAddFeatures a ro fs =>
    [.mapHdr 4, .uint 0, encKind .AccountAddFeatures, .uint 1, .addr a, .uint 2, .roleMap ro,
      .uint 3, .featureSet fs]
  | .AccountMultisigSubmit sub acc memo tx tok th ti ea d =>
    [.mapHdr 10, .uint 0, encKind .AccountMultisigSubmit, .uint 1, .addr sub, .uint 2,
      .addr acc, .uint 3] ++ encOpt Tok.memo memo ++ [.uint 4] ++ encTx tx ++ [.uint 5] ++
      encOpt Tok.bytes tok ++ [.uint 6, .uint th, .uint 7, .time ti, .uint 8, .boolTok ea,
      .uint 9] ++ encOpt Tok.dat d
  | .AccountMultisigApprove a tk ap =>
    [.mapHdr 4, .uint 0, encKind .AccountMultisigApprove, .uint 1, .addr a, .uint 2,
      .bytes tk, .uint 3, .addr ap]
  | .AccountMultisigRevoke a tk rv =>
    [.mapHdr 4, .uint 0, encKind .AccountMultisigRevoke, .uint 1, .addr a, .uint 2,
      .bytes tk, .uint 3, .addr rv]
  | .AccountMultisigExecute a tk ex resp =>
    [.mapHdr 5, .uint 0, encKind .AccountMultisigExecute, .uint 1, .addr a, .uint 2,
      .bytes tk, .uint 3] ++ encOpt Tok.addr ex ++ [.uint 4, .resp resp]
  | .AccountMultisigWithdraw a tk w =>
    [.mapHdr 4, .uint 0, encKind .AccountMultisigWithdraw, .uint 1, .addr a, .uint 2,
      .bytes tk, .uint 3, .addr w]
  | .AccountMultisigSetDefaults sub acc th ti ea =>
    [.mapHdr 6, .uint 0, encKind .AccountMultisigSetDefaults, .uint 1, .addr sub, .uint 2,
      .addr acc, .uint 3] ++ encOpt Tok.uint th ++ [.uint 4] ++ encOpt Tok.uint ti ++
      [.uint 5] ++ encOpt Tok.boolTok ea
  | .AccountMultisigExpired a tk t =>
    [.mapHdr 4, .uint 0, encKind .AccountMultisigExpired, .uint 1, .addr a, .uint 2,
      .bytes tk, .uint 3, .time t]

/-- Field presence check ending the decode loop of the Send
    variant: every field must have been seen. -/
def finishSend (ts : List Tok) (f : Option Address) (t : Option Address) (sy : Option Symbol) (am : Option TokenAmount) :
    Option ((Address × Address × Symbol × TokenAmount) × List Tok) :=
  match f, t, sy, am with
  | some f, some t, some sy, some am => some ((f, t, sy, am), ts)
  | _, _, _, _ => none

/-- Rust decode loop of the Send
    variant: while more than one map entry remains, read a field key and
    decode its value; unknown keys are errors. -/
def loopSend (len : Nat) (ts : List Tok) (f : Option Address) (t : Option Address) (sy : Option Symbol) (am : Option TokenAmount) :
    Option ((Address × Address × Symbol × TokenAmount) × List Tok) :=
  match len with
  | 0 => finishSend ts f t sy am
  | 1 => finishSend ts f t sy am
  | len + 2 =>
    match ts with
    | .uint 1 :: r =>
      (match decAddr r with
       | some (v, r2) => loopSend (len + 1) r2 (some v) t sy am
       | none => none)
    | .uint 2 :: r =>
      (match decAddr r with
       | some (v, r2) => loopSend (len + 1) r2 f (some v) sy am
       | none => none)
    | .uint 3 :: r =>
      (match decAddr r with
       | some (v, r2) => loopSend (len + 1) r2 f t (some v) am
       | none => none)
    | .uint 4 :: r =>
      (match decAmount r with
       | some (v, r2) => loopSend (len + 1) r2 f t sy (some v)
       | none => none)
    | _ => none

/-- Field presence check ending the decode loop of the AccountCreate
    variant: every field must have been seen. -/
def finishCreate (ts : List Tok) (a : Option Address) (d : Option (Option String)) (ro : Option RoleMap) (fs : Option FeatureSet) :
    Option ((Address × Option String × RoleMap × FeatureSet) × List Tok) :=
  match a, d, ro, fs with
  | some a, some d, some ro, some fs => some ((a, d, ro, fs), ts)
  | _, _, _, _ => none

/-- Rust decode loop of the AccountCreate
    variant: while more than one map entry remains, read a field key and
    decode its value; unknown keys are errors. -/
def loopCreate (len : Nat) (ts : List Tok) (a : Option Address) (d : Option (Option String)) (ro : Option RoleMap) (fs : Option FeatureSet) :
    Option ((Address × Option String × RoleMap × FeatureSet) × List Tok) :=
  match len with
  | 0 => finishCreate ts a d ro fs
  | 1 => finishCreate ts a d ro fs
  | len + 2 =>
    match ts with
    | .uint 1 :: r =>
      (match decAddr r with
       | some (v, r2) => loopCreate (len + 1) r2 (some v) d ro fs
       | none => none)
    | .uint 2 :: r =>
      (match decOpt decStr r with
       | some (v, r2) => loopCreate (len + 1) r2 a (some v) ro fs
       | none => none)
    | .uint 3 :: r =>
      (match decRoleMap r with
       | some (v, r2) => loopCreate (len + 1) r2 a d (some v) fs
       | none => none)
    | .uint 4 :: r =>
      (match decFeat r with
       | some (v, r2) => loopCreate (len + 1) r2 a d ro (some v)
       | none => none)
    | _ => none

/-- Field presence check ending the decode loop of the AccountSetDescription
    variant: every field must have been seen. -/
def finishSetDescription (ts : List Tok) (a : Option Address) (d : Option String) :
    Option ((Address × String) × List Tok) :=
  match a, d with
  | some a, some d => some ((a, d), ts)
  | _, _ => none

/-- Rust decode loop of the AccountSetDescription
    variant: while more than one map entry remains, read a field key and
    decode its value; unknown keys are errors. -/
def loopSetDescription (len : Nat) (ts : List Tok) (a : Option Address) (d : Option String) :
    Option ((Address × String) × List Tok) :=
  match len with
  | 0 => finishSetDescription ts a d
  | 1 => finishSetDescription ts a d
  | len + 2 =>
    match ts with
    | .uint 1 :: r =>
      (match decAddr r with
       | some (v, r2) => loopSetDescription (len + 1) r2 (some v) d
       | none => none)
    | .uint 2 :: r =>
      (match decStr r with
       | some (v, r2) => loopSetDescription (len + 1) r2 a (some v)
       | none => none)
    | _ => none

/-- Field presence check ending the decode loop of the AccountAddRoles and AccountRemoveRoles
    variant: every field must have been seen. -/
def finishAcctRoles (ts : List Tok) (a : Option Address) (ro : Option RoleMap) :
    Option ((Address × RoleMap) × List Tok) :=
  match a, ro with
  | some a, some ro => some ((a, ro), ts)
  | _, _ => none

/-- Rust decode loop of the AccountAddRoles and AccountRemoveRoles
    variant: while more than one map entry remains, read a field key and
    decode its value; unknown keys are errors. -/
def loopAcctRoles (len : Nat) (ts : List Tok) (a : Option Address) (ro : Option RoleMap) :
    Option ((Address × RoleMap) × List Tok) :=
  match len with
  | 0 => finishAcctRoles ts a ro
  | 1 => finishAcctRoles ts a ro
  | len + 2 =>
    match ts with
    | .uint 1 :: r =>
      (match decAddr r with
       | some (v, r2) => loopAcctRoles (len + 1) r2 (some v) ro
       | none => none)
    | .uint 2 :: r =>
      (match decRoleMap r with
       | some (v, r2) => loopAcctRoles (len + 1) r2 a (some v)
       | none => none)
    | _ => none

/-- Field presence check ending the decode loop of the AccountDisable
    variant: every field must have been seen. -/
def finishDisable (ts : List Tok) (a : Option Address) :
    Option (Address × List Tok) :=
  match a with
  | some a => some (a, ts)
  | _ => none

/-- Rust decode loop of the AccountDisable
    variant: while more than one map entry remains, read a field key and
    decode its value; unknown keys are errors. -/
def loopDisable (len : Nat) (ts : List Tok) (a : Option Address) :
    Option (Address × List Tok) :=
  match len with
  | 0 => finishDisable ts a
  | 1 => finishDisable ts a
  | len + 2 =>
    match ts with
    | .uint 1 :: r =>
      (match decAddr r with
       | some (v, r2) => loopDisable (len + 1) r2 (some v)
       | none => none)
    | _ => none

/-- Field presence check ending the decode loop of the AccountAddFeatures
    variant: every field must have been seen. -/
def finishAddFeatures (ts : List Tok) (a : Option Address) (ro : Option RoleMap) (fs : Option FeatureSet) :
    Option ((Address × RoleMap × FeatureSet) × List Tok) :=
  match a, ro, fs with
  | some a, some ro, some fs => some ((a, ro, fs), ts)
  | _, _, _ => none

/-- Rust decode loop of the AccountAddFeatures
    variant: while more than one map entry remains, read a field key and
    decode its value; unknown keys are errors. -/
def loopAddFeatures (len : Nat) (ts : List Tok) (a : Option Address) (ro : Option RoleMap) (fs : Option FeatureSet) :
    Option ((Address × RoleMap × FeatureSet) × List Tok) :=
  match len with
  | 0 => finishAddFeatures ts a ro fs
  | 1 => finishAddFeatures ts a ro fs
  | len + 2 =>
    match ts with
    | .uint 1 :: r =>
      (match decAddr r with
       | some (v, r2) => loopAddFeatures (len + 1) r2 (some v) ro fs
       | none => none)
    | .uint 2 :: r =>
      (match decRoleMap r with
       | some (v, r2) => loopAddFeatures (len + 1) r2 a (some v) fs
       | none => none)
    | .uint 3 :: r =>
      (match decFeat r with
       | some (v, r2) => loopAddFeatures (len + 1) r2 a ro (some v)
       | none => none)
    | _ => none

/-- Field presence check ending the decode loop of the AccountMultisigSubmit
    variant: every field must have been seen. -/
def finishSubmit (ts : List Tok) (sub : Option Address) (acc : Option Address) (memo : Option (Option String)) (tx : Option AccountMultisigTransaction) (tok : Option (Option ByteVec)) (th : Option Nat) (ti : Option Timestamp) (ea : Option Bool) (d : Option (Option Nat)) :
    Option ((Address × Address × Option String × AccountMultisigTransaction × Option ByteVec × Nat × Timestamp × Bool × Option Nat) × List Tok) :=
  match sub, acc, memo, tx, tok, th, ti, ea, d with
  | some sub, some acc, some memo, some tx, some tok, some th, some ti, some ea, some d => some ((sub, acc, memo, tx, tok, th, ti, ea, d), ts)
  | _, _, _, _, _, _, _, _, _ => none

/-- Rust decode loop of the AccountMultisigSubmit
    variant: while more than one map entry remains, read a field key and
    decode its value; unknown keys are errors. -/
def loopSubmit (len : Nat) (ts : List Tok) (sub : Option Address) (acc : Option Address) (memo : Option (Option String)) (tx : Option AccountMultisigTransaction) (tok : Option (Option ByteVec)) (th : Option Nat) (ti : Option Timestamp) (ea : Option Bool) (d : Option (Option Nat)) :
    Option ((Address × Address × Option String × AccountMultisigTransaction × Option ByteVec × Nat × Timestamp × Bool × Option Nat) × List Tok) :=
  match len with
  | 0 => finishSubmit ts sub acc memo tx tok th ti ea d
  | 1 => finishSubmit ts sub acc memo tx tok th ti ea d
  | len + 2 =>
    match ts with
    | .uint 1 :: r =>
      (match decAddr r with
       | some (v, r2) => loopSubmit (len + 1) r2 (some v) acc memo tx tok th ti ea d
       | none => none)
    | .uint 2 :: r =>
      (match decAddr r with
       | some (v, r2) => loopSubmit (len + 1) r2 sub (some v) memo tx tok th ti ea d
       | none => none)
    | .uint 3 :: r =>
      (match decOpt decMemo r with
       | some (v, r2) => loopSubmit (len + 1) r2 sub acc (some v) tx tok th ti ea d
       | none => none)
    | .uint 4 :: r =>
      (match decTx r with
       | some (v, r2) => loopSubmit (len + 1) r2 sub acc memo (some v) tok th ti ea d
       | none => none)
    | .uint 5 :: r =>
      (match decOpt decBytes r with
       | some (v, r2) => loopSubmit (len + 1) r2 sub acc memo tx (some v) th ti ea d
       | none => none)
    | .uint 6 :: r =>
      (match decU64 r with
       | some (v, r2) => loopSubmit (len + 1) r2 sub acc memo tx tok (some v) ti ea d
       | none => none)
    | .uint 7 :: r =>
      (match decTime r with
       | some (v, r2) => loopSubmit (len + 1) r2 sub acc memo tx tok th (some v) ea d
       | none => none)
    | .uint 8 :: r =>
      (match decBool r with
       | some (v, r2) => loopSubmit (len + 1) r2 sub acc memo tx tok th ti (some v) d
       | none => none)
    | .uint 9 :: r =>
      (match decOpt decDat r with
       | some (v, r2) => loopSubmit (len + 1) r2 sub acc memo tx tok th ti ea (some v)
       | none => none)
    | _ => none

/-- Field presence check ending the decode loop of the AccountMultisigApprove, AccountMultisigRevoke and AccountMultisigWithdraw
    variant: every field must have been seen. -/
def finishAcctTokenAddr (ts : List Tok) (a : Option Address) (tk : Option ByteVec) (x : Option Address) :
    Option ((Address × ByteVec × Address) × List Tok) :=
  match a, tk, x with
  | some a, some tk, some x => some ((a, tk, x), ts)
  | _, _, _ => none

/-- Rust decode loop of the AccountMultisigApprove, AccountMultisigRevoke and AccountMultisigWithdraw
    variant: while more than one map entry remains, read a field key and
    decode its value; unknown keys are errors. -/
def loopAcctTokenAddr (len : Nat) (ts : List Tok) (a : Option Address) (tk : Option ByteVec) (x : Option Address) :
    Option ((Address × ByteVec × Address) × List Tok) :=
  match len with
  | 0 => finishAcctTokenAddr ts a tk x
  | 1 => finishAcctTokenAddr ts a tk x
  | len + 2 =>
    match ts with
    | .uint 1 :: r =>
      (match decAddr r with
       | some (v, r2) => loopAcctTokenAddr (len + 1) r2 (some v) tk x
       | none => none)
    | .uint 2 :: r =>
      (match decBytes r with
       | some (v, r2) => loopAcctTokenAddr (len + 1) r2 a (some v) x
       | none => none)
    | .uint 3 :: r =>
      (match decAddr r with
       | some (v, r2) => loopAcctTokenAddr (len + 1) r2 a tk (some v)
       | none => none)
    | _ => none

/-- Field presence check ending the decode loop of the AccountMultisigExecute
    variant: every field must have been seen. -/
def finishExecute (ts : List Tok) (a : Option Address) (tk : Option ByteVec) (ex : Option (Option Address)) (resp : Option ResponseMessage) :
    Option ((Address × ByteVec × Option Address × ResponseMessage) × List Tok) :=
  match a, tk, ex, resp with
  | some a, some tk, some ex, some resp => some ((a, tk, ex, resp), ts)
  | _, _, _, _ => none

/-- Rust decode loop of the AccountMultisigExecute
    variant: while more than one map entry remains, read a field key and
    decode its value; unknown keys are errors. -/
def loopExecute (len : Nat) (ts : List Tok) (a : Option Address) (tk : Option ByteVec) (ex : Option (Option Address)) (resp : Option ResponseMessage) :
    Option ((Address × ByteVec × Option Address × ResponseMessage) × List Tok) :=
  match len with
  | 0 => finishExecute ts a tk ex resp
  | 1 => finishExecute ts a tk ex resp
  | len + 2 =>
    match ts with
    | .uint 1 :: r =>
      (match decAddr r with
       | some (v, r2) => loopExecute (len + 1) r2 (some v) tk ex resp
       | none => none)
    | .uint 2 :: r =>
      (match decBytes r with
       | some (v, r2) => loopExecute (len + 1) r2 a (some v) ex resp
       | none => none)
    | .uint 3 :: r =>
      (match decOpt decAddr r with
       | some (v, r2) => loopExecute (len + 1) r2 a tk (some v) resp
       | none => none)
    | .uint 4 :: r =>
      (match decResp r with
       | some (v, r2) => loopExecute (len + 1) r2 a tk ex (some v)
       | none => none)
    | _ => none

/-- Field presence check ending the decode loop of the AccountMultisigSetDefaults
    variant: every field must have been seen. -/
def finishSetDefaults (ts : List Tok) (sub : Option Address) (acc : Option Address) (th : Option (Option Nat)) (ti : Option (Option Nat)) (ea : Option (Option Bool)) :
    Option ((Address × Address × Option Nat × Option Nat × Option Bool) × List Tok) :=
  match sub, acc, th, ti, ea with
  | some sub, some acc, some th, some ti, some ea => some ((sub, acc, th, ti, ea), ts)
  | _, _, _, _, _ => none

/-- Rust decode loop of the AccountMultisigSetDefaults
    variant: while more than one map entry remains, read a field key and
    decode its value; unknown keys are errors. -/
def loopSetDefaults (len : Nat) (ts : List Tok) (sub : Option Address) (acc : Option Address) (th : Option (Option Nat)) (ti : Option (Option Nat)) (ea : Option (Option Bool)) :
    Option ((Address × Address × Option Nat × Option Nat × Option Bool) × List Tok) :=
  match len with
  | 0 => finishSetDefaults ts sub acc th ti ea
  | 1 => finishSetDefaults ts sub acc th ti ea
  | len + 2 =>
    match ts with
    | .uint 1 :: r =>
      (match decAddr r with
       | some (v, r2) => loopSetDefaults (len + 1) r2 (some v) acc th ti ea
       | none => none)
    | .uint 2 :: r =>
      (match decAddr r with
       | some (v, r2) => loopSetDefaults (len + 1) r2 sub (some v) th ti ea
       | none => none)
    | .uint 3 :: r =>
      (match decOpt decU64 r with
       | some (v, r2) => loopSetDefaults (len + 1) r2 sub acc (some v) ti ea
       | none => none)
    | .uint 4 :: r =>
      (match decOpt decU64 r with
       | some (v, r2) => loopSetDefaults (len + 1) r2 sub acc th (some v) ea
       | none => none)
    | .uint 5 :: r =>
      (match decOpt decBool r with
       | some (v, r2) => loopSetDefaults (len + 1) r2 sub acc th ti (some v)
       | none => none)
    | _ => none

/-- Field presence check ending the decode loop of the AccountMultisigExpired
    variant: every field must have been seen. -/
def finishExpired (ts : List Tok) (a : Option Address) (tk : Option ByteVec) (t : Option Timestamp) :
    Option ((Address × ByteVec × Timestamp) × List Tok) :=
  match a, tk, t with
  | some a, some tk, some t => some ((a, tk, t), ts)
  | _, _, _ => none

/-- Rust decode loop of the AccountMultisigExpired
    variant: while more than one map entry remains, read a field key and
    decode its value; unknown keys are errors. -/
def loopExpired (len : Nat) (ts : List Tok) (a : Option Address) (tk : Option ByteVec) (t : Option Timestamp) :
    Option ((Address × ByteVec × Timestamp) × List Tok) :=
  match len with
  | 0 => finishExpired ts a tk t
  | 1 => finishExpired ts a tk t
  | len + 2 =>
    match ts with
    | .uint 1 :: r =>
      (match decAddr r with
       | some (v, r2) => loopExpired (len + 1) r2 (some v) tk t
       | none => none)
    | .uint 2 :: r =>
      (match decBytes r with
       | some (v, r2) => loopExpired (len + 1) r2 a (some v) t
       | none => none)
    | .uint 3 :: r =>
      (match decTime r with
       | some (v, r2) => loopExpired (len + 1) r2 a tk (some v)
       | none => none)
    | _ => none

/-- Rust impl Decode for EventInfo, per the encode_event_info macro: read
    the map header, require the key 0 first, decode the kind, then run
    the field loop of the kind and require every field present. -/
def decEventInfo (ts : List Tok) : Option (EventInfo × List Tok) :=
  match ts with
  | .mapHdr len :: .uint 0 :: .attrIdx l :: rest =>
    (match kindOfIndex l with
     | some .Send =>
       (match loopSend len rest none none none none with
        | some ((f, t, sy, am), r) => some (.Send f t sy am, r)
        | none => none)
     | some .AccountCreate =>
       (match loopCreate len rest none none none none with
        | some ((a, d, ro, fs), r) => some (.AccountCreate a d ro fs, r)
        | none => none)
     | some .AccountSetDescription =>
       (match loopSetDescription len rest none none with
        | some ((a, d), r) => some (.AccountSetDescription a d, r)
        | none => none)
     | some .AccountAddRoles =>
       (match loopAcctRoles len rest none none with
        | some ((a, ro), r) => some (.AccountAddRoles a ro, r)
        | none => none)
     | some .AccountRemoveRoles =>
       (match loopAcctRoles len rest none none with
        | some ((a, ro), r) => some (.AccountRemoveRoles a ro, r)
        | none => none)
     | some .AccountDisable =>
       (match loopDisable len rest none with
        | some (a, r) => some (.AccountDisable a, r)
        | none => none)
     | some .AccountAddFeatures =>
       (match loopAddFeatures len rest none none none with
        | some ((a, ro, fs), r) => some (.AccountAddFeatures a ro fs, r)
        | none => none)
     | some .AccountMultisigSubmit =>
       (match loopSubmit len rest none none none none none none none none none with
        | some ((sub, acc, memo, tx, tok, th, ti, ea, d), r) =>
          some (.AccountMultisigSubmit sub acc memo tx tok th ti ea d, r)
        | none => none)
     | some .AccountMultisigApprove =>
       (match loopAcctTokenAddr len rest none none none with
        | some ((a, tk, ap), r) => some (.AccountMultisigApprove a tk ap, r)
        | none => none)
     | some .AccountMultisigRevoke =>
       (match loopAcctTokenAddr len rest none none none with
        | some ((a, tk, rv), r) => some (.AccountMultisigRevoke a tk rv, r)
        | none => none)
     | some .AccountMultisigExecute =>
       (match loopExecute len rest none none none none with
        | some ((a, tk, ex, resp), r) => some (.AccountMultisigExecute a tk ex resp, r)
        | none => none)
     | some .AccountMultisigWithdraw =>
       (match loopAcctTokenAddr len rest none none none with
        | some ((a, tk, w), r) => some (.AccountMultisigWithdraw a tk w, r)
        | none => none)
     | some .AccountMultisigSetDefaults =>
       (match loopSetDefaults len rest none none none none none with
        | some ((sub, acc, th, ti, ea), r) =>
          some (.AccountMultisigSetDefaults sub acc th ti ea, r)
        | none => none)
     | some .AccountMultisigExpired =>
       (match loopExpired len rest none none none with
        | some ((a, tk, t), r) => some (.AccountMultisigExpired a tk t, r)
        | none => none)
     | none => none)
  | _ => none

theorem rtSend (f t sy : Address) (am : TokenAmount) (r : List Tok) :
    decEventInfo (encEventInfo (.Send f t sy am) ++ r) = some (.Send f t sy am, r) := rfl

theorem rtCreate (a : Address) (d : Option String) (ro : RoleMap) (fs : FeatureSet)
    (r : List Tok) :
    decEventInfo (encEventInfo (.AccountCreate a d ro fs) ++ r) =
      some (.AccountCreate a d ro fs, r) := by
  cases d <;> rfl

theorem rtSetDescription (a : Address) (d : String) (r : List Tok) :
    decEventInfo (encEventInfo (.AccountSetDescription a d) ++ r) =
      some (.AccountSetDescription a d, r) := rfl

theorem rtAddRoles (a : Address) (ro : RoleMap) (r : List Tok) :
    decEventInfo (encEventInfo (.AccountAddRoles a ro) ++ r) =
      some (.AccountAddRoles a ro, r) := rfl

theorem rtRemoveRoles (a : Address) (ro : RoleMap) (r : List Tok) :
    decEventInfo (encEventInfo (.AccountRemoveRoles a ro) ++ r) =
      some (.AccountRemoveRoles a ro, r) := rfl

theorem rtDisable (a : Address) (r : List Tok) :
    decEventInfo (encEventInfo (.AccountDisable a) ++ r) =
      some (.AccountDisable a, r) := rfl

theorem rtAddFeatures (a : Address) (ro : RoleMap) (fs : FeatureSet) (r : List Tok) :
    decEventInfo (encEventInfo (.AccountAddFeatures a ro fs) ++ r) =
      some (.AccountAddFeatures a ro fs, r) := rfl

set_option maxHeartbeats 4000000 in
theorem rtSubmit (sub acc : Address) (memo : Option String)
    (tx : AccountMultisigTransaction) (tok : Option ByteVec) (th : Nat)
    (ti : Timestamp) (ea : Bool) (d : Option Nat) (r : List Tok) :
    decEventInfo (encEventInfo (.AccountMultisigSubmit sub acc memo tx tok th ti ea d) ++ r) =
      some (.AccountMultisigSubmit sub acc memo tx tok th ti ea d, r) := by
  cases memo <;> cases tok <;> cases d <;>
    simp only [encEventInfo, encOpt, encKind, eventKindIndex, List.cons_append,
      List.nil_append, List.append_assoc, decEventInfo, kindOfIndex, loopSubmit,
      finishSubmit, decAddr, decOpt, decMemo, decBytes, decU64, decTime, decBool, decDat,
      decTx_encTx]

theorem rtApprove (a : Address) (tk : ByteVec) (ap : Address) (r : List Tok) :
    decEventInfo (encEventInfo (.AccountMultisigApprove a tk ap) ++ r) =
      some (.AccountMultisigApprove a tk ap, r) := rfl

theorem rtRevoke (a : Address) (tk : ByteVec) (rv : Address) (r : List Tok) :
    decEventInfo (encEventInfo (.AccountMultisigRevoke a tk rv) ++ r) =
      some (.AccountMultisigRevoke a tk rv, r) := rfl

theorem rtExecute (a : Address) (tk : ByteVec) (ex : Option Address)
    (resp : ResponseMessage) (r : List Tok) :
    decEventInfo (encEventInfo (.AccountMultisigExecute a tk ex resp) ++ r) =
      some (.AccountMultisigExecute a tk ex resp, r) := by
  cases ex <;> rfl

theorem rtWithdraw (a : Address) (tk : ByteVec) (w : Address) (r : List Tok) :
    decEventInfo (encEventInfo (.AccountMultisigWithdraw a tk w) ++ r) =
      some (.AccountMultisigWithdraw a tk w, r) := rfl

theorem rtSetDefaults (sub acc : Address) (th ti : Option Nat) (ea : Option Bool)
    (r : List Tok) :
    decEventInfo (encEventInfo (.AccountMultisigSetDefaults sub acc th ti ea) ++ r) =
      some (.AccountMultisigSetDefaults sub acc th ti ea, r) := by
  cases th <;> cases ti <;> cases ea <;> rfl

theorem rtExpired (a : Address) (tk : ByteVec) (t : Timestamp) (r : List Tok) :
    decEventInfo (encEventInfo (.AccountMultisigExpired a tk t) ++ r) =
      some (.AccountMultisigExpired a tk t, r) := rfl

/-- C8: serializing any EventInfo value with the event codec and
    deserializing the bytes yields the original value, for every variant,
    optional fields and nested multisig transactions included. -/
theorem C8_event_info_roundtrip (e : EventInfo) :
    decEventInfo (encEventInfo e) = some (e, []) := by
  have h : decEventInfo (encEventInfo e ++ []) = some (e, []) := by
    cases e with
    | Send f t sy am => exact rtSend f t sy am []
    | AccountCreate a d ro fs => exact rtCreate a d ro fs []
    | AccountSetDescription a d => exact rtSetDescription a d []
    | AccountAddRoles a ro => exact rtAddRoles a ro []
    | AccountRemoveRoles a ro => exact rtRemoveRoles a ro []
    | AccountDisable a => exact rtDisable a []
    | AccountAddFeatures a ro fs => exact rtAddFeatures a ro fs []
    | AccountMultisigSubmit sub acc memo tx tok th ti ea d =>
      exact rtSubmit sub acc memo tx tok th ti ea d []
    | AccountMultisigApprove a tk ap => exact rtApprove a tk ap []
    | AccountMultisigRevoke a tk rv => exact rtRevoke a tk rv []
    | AccountMultisigExecute a tk ex resp => exact rtExecute a tk ex resp []
    | AccountMultisigWithdraw a tk w => exact rtWithdraw a tk w []
    | AccountMultisigSetDefaults sub acc th ti ea => exact rtSetDefaults sub acc th ti ea []
    | AccountMultisigExpired a tk t => exact rtExpired a tk t []
  simpa using h

end ManyRs
